import Mathlib

/-!
Verification of the force-resolution layout engine of the rolodex
network-visualization app (`src/app/page.tsx`), against its natural-language
specification.  Node positions are modelled over `ℝ` (the source computes with
JS doubles); `Math.sqrt` becomes `Real.sqrt`, `Math.atan2 dy dx` becomes
`Complex.arg ⟨dx, dy⟩`.
-/

namespace Rolodex

/-- Cartesian position `{x, y}` as used throughout `page.tsx`. -/
structure Pos where
  x : ℝ
  y : ℝ

/-- Contact record, from the `Person` interface in `src/lib/db.ts`. -/
structure Person where
  id : String
  user_id : String
  name : String
  role : Option String
  company : Option String
  introducer_id : Option String
  notes : Option String
  created_at : String

/-- Payload of a graph node, from the `PersonNodeData` type in `page.tsx`.
`person` is `Person | null | undefined` in the source; both null-ish values
collapse to `none` here. -/
structure PersonNodeData where
  label : String
  person : Option Person
  isUser : Option Bool
  gradientFrom : Option String
  gradientTo : Option String

/-- React Flow node record as used by `page.tsx`: the fields the layout code
reads or writes.  `type` and `draggable` are optional in the source. -/
structure RFNode where
  id : String
  type : Option String
  position : Pos
  data : PersonNodeData
  draggable : Option Bool

/-- Node circle radius, `NODE_RADIUS = 25` in `page.tsx`. -/
def NODE_RADIUS : ℝ := 25

/-- Collision detection threshold, `MIN_DISTANCE = NODE_RADIUS * 1.25`. -/
noncomputable def MIN_DISTANCE : ℝ := NODE_RADIUS * 1.25

/-- Extra separation added on each correction, `BOUNCE_FORCE = 5`. -/
def BOUNCE_FORCE : ℝ := 5

/-- Iteration cap of both resolver loops, `maxIterations = 10`. -/
def maxIterations : Nat := 10

/-- Center-to-center Euclidean distance exactly as `page.tsx` computes it:
`Math.sqrt(dx*dx + dy*dy)` with `dx = B.x - A.x`, `dy = B.y - A.y`. -/
@[reducible] noncomputable def nodeDist (a b : RFNode) : ℝ :=
  Real.sqrt ((b.position.x - a.position.x) * (b.position.x - a.position.x) +
    (b.position.y - a.position.y) * (b.position.y - a.position.y))

/-- In-place update of the element at index `k` (JS `ns[k] = f(ns[k])`);
out-of-range indices leave the list unchanged. -/
def modifyAt {α : Type _} (ns : List α) (k : Nat) (f : α → α) : List α :=
  match ns[k]? with
  | some n => ns.set k (f n)
  | none => ns

/-- Push split `(pushA, pushB)` of a drag-pass correction (`page.tsx` lines
233–254): a user-center node is never pushed and its partner receives the
full `pushDistance`; otherwise the actively dragged node receives
`pushDistance * 0.15` and a passive node `pushDistance * 0.25`. -/
noncomputable def dragPushes (changedNodeId : Option String)
    (nodeA nodeB : RFNode) (pushDistance : ℝ) : ℝ × ℝ :=
  if nodeA.id = "user-center" ∨ nodeA.id = "fallback-user-center" then
    (0, pushDistance)
  else if nodeB.id = "user-center" ∨ nodeB.id = "fallback-user-center" then
    (pushDistance, 0)
  else
    ((if changedNodeId = some nodeA.id then pushDistance * 0.15
      else pushDistance * 0.25),
     (if changedNodeId = some nodeB.id then pushDistance * 0.15
      else pushDistance * 0.25))

/-- Body of the inner `for j` loop of `detectAndResolveCollisions`
(`page.tsx` lines 209–277).  `nodeA` is the binding `const nodeA =
updatedNodes[i]` taken at the start of the `i` iteration (so it is *stale*
with respect to pushes applied to index `i` later in the same row), while
`nodeB` and both position updates read the current array. -/
noncomputable def dragStep (changedNodeId : Option String) (i : Nat) (nodeA : RFNode)
    (st : List RFNode × Bool) (j : Nat) : List RFNode × Bool :=
  match st.1[j]? with
  | none => st
  | some nodeB =>
    let dx := nodeB.position.x - nodeA.position.x
    let dy := nodeB.position.y - nodeA.position.y
    let distance := Real.sqrt (dx * dx + dy * dy)
    if distance < MIN_DISTANCE ∧ distance > 0.1 then
      let unitX := dx / distance
      let unitY := dy / distance
      let overlap := MIN_DISTANCE - distance
      let pushDistance := overlap + BOUNCE_FORCE
      let pushes := dragPushes changedNodeId nodeA nodeB pushDistance
      let ns1 := modifyAt st.1 i fun cur =>
        { cur with position := ⟨cur.position.x - unitX * pushes.1,
                                cur.position.y - unitY * pushes.1⟩ }
      let ns2 := modifyAt ns1 j fun cur =>
        { cur with position := ⟨cur.position.x + unitX * pushes.2,
                                cur.position.y + unitY * pushes.2⟩ }
      (ns2, true)
    else st

/-- One iteration of the outer `for i` loop of `detectAndResolveCollisions`:
bind `nodeA` once, then run the inner loop over `j = i+1 … n-1`. -/
noncomputable def dragRow (changedNodeId : Option String) (n : Nat)
    (st : List RFNode × Bool) (i : Nat) : List RFNode × Bool :=
  match st.1[i]? with
  | none => st
  | some nodeA => (List.range' (i + 1) (n - (i + 1))).foldl
      (dragStep changedNodeId i nodeA) st

/-- One full `while` pass of `detectAndResolveCollisions`: `hasCollisions`
reset to `false`, then all ordered pairs visited. -/
noncomputable def dragPass (changedNodeId : Option String) (ns : List RFNode) :
    List RFNode × Bool :=
  (List.range ns.length).foldl (dragRow changedNodeId ns.length) (ns, false)

/-- The `while (hasCollisions && iterations < maxIterations)` loop.  The
returned flag is `true` iff the loop stopped because a pass found no
collision (rather than by exhausting the iteration cap). -/
noncomputable def dragLoop (changedNodeId : Option String) :
    Nat → List RFNode → List RFNode × Bool
  | 0, ns => (ns, false)
  | fuel + 1, ns =>
    if (dragPass changedNodeId ns).2 then
      dragLoop changedNodeId fuel (dragPass changedNodeId ns).1
    else ((dragPass changedNodeId ns).1, true)

/-- Drag-time collision resolver, `detectAndResolveCollisions` of `page.tsx`
(lines 185–283). -/
noncomputable def detectAndResolveCollisions (ns : List RFNode)
    (changedNodeId : Option String) : List RFNode :=
  (dragLoop changedNodeId maxIterations ns).1

/-- Body of the inner `for j` loop of the initial-layout settle pass inside
`updateNodesAndEdges` (`page.tsx` lines 793–825).  Differences from the drag
pass, all faithful to the source: pairs whose `j` node is the non-draggable
`"user-center"` node are skipped outright; the coincidence guard is
`distance > 0` (not `> 0.1`); `pushDistance = overlap / 2 + BOUNCE_FORCE`;
each side moves by `pushDistance * 0.25`; and the `i`-side update spreads the
*stale* `nodeA` binding, so earlier pushes to index `i` in the same row are
overwritten. -/
noncomputable def settleStep (i : Nat) (nodeA : RFNode)
    (st : List RFNode × Bool) (j : Nat) : List RFNode × Bool :=
  match st.1[j]? with
  | none => st
  | some nodeB =>
    if nodeB.id = "user-center" ∧ nodeB.draggable ≠ some true then st
    else
      let dx := nodeB.position.x - nodeA.position.x
      let dy := nodeB.position.y - nodeA.position.y
      let distance := Real.sqrt (dx * dx + dy * dy)
      if distance < MIN_DISTANCE ∧ distance > 0 then
        let unitX := dx / distance
        let unitY := dy / distance
        let overlap := MIN_DISTANCE - distance
        let pushDistance := overlap / 2 + BOUNCE_FORCE
        let ns1 := st.1.set i
          { nodeA with position := ⟨nodeA.position.x - unitX * pushDistance * 0.25,
                                    nodeA.position.y - unitY * pushDistance * 0.25⟩ }
        let ns2 := ns1.set j
          { nodeB with position := ⟨nodeB.position.x + unitX * pushDistance * 0.25,
                                    nodeB.position.y + unitY * pushDistance * 0.25⟩ }
        (ns2, true)
      else st

/-- One iteration of the outer `for i` loop of the settle pass: rows whose
`i` node is the non-draggable `"user-center"` node are skipped (`continue`). -/
noncomputable def settleRow (n : Nat) (st : List RFNode × Bool) (i : Nat) :
    List RFNode × Bool :=
  match st.1[i]? with
  | none => st
  | some nodeA =>
    if nodeA.id = "user-center" ∧ nodeA.draggable ≠ some true then st
    else (List.range' (i + 1) (n - (i + 1))).foldl (settleStep i nodeA) st

/-- One full `while` pass of the settle loop. -/
noncomputable def settlePass (ns : List RFNode) : List RFNode × Bool :=
  (List.range ns.length).foldl (settleRow ns.length) (ns, false)

/-- The settle `while` loop (fuel = remaining iterations); flag `true` iff it
stopped because a pass found no collision. -/
noncomputable def settleLoop : Nat → List RFNode → List RFNode × Bool
  | 0, ns => (ns, false)
  | fuel + 1, ns =>
    if (settlePass ns).2 then settleLoop fuel (settlePass ns).1
    else ((settlePass ns).1, true)

/-- The complete initial-layout collision settling in `updateNodesAndEdges`
(`page.tsx` lines 776–827). -/
noncomputable def settleResolve (ns : List RFNode) : List RFNode :=
  (settleLoop maxIterations ns).1

/-! ### Position Store (`saveNodePositions` / `loadNodePositions`) -/

/-- The position record built by `saveNodePositions` (`page.tsx` lines
292–298): every node except the user-center ids, mapped to its position. -/
def positionsToSave (nodes : List RFNode) : List (String × Pos) :=
  (nodes.filter fun n =>
    !(n.id == "user-center" || n.id == "fallback-user-center")).map
    fun n => (n.id, n.position)

/-- Key namespacing the store per authenticated user. -/
def storageKey (uid : String) : String := "node-positions-" ++ uid

/-- The `localStorage` write performed by `saveNodePositions` (`page.tsx`
lines 286–307).  The browser store is modelled as a partial map from keys to
raw strings and `JSON.stringify` as an external `serialize` function.  With
no authenticated user the function returns the store unchanged. -/
def saveNodePositions (userId : Option String) (nodes : List RFNode)
    (serialize : List (String × Pos) → String)
    (store : String → Option String) : String → Option String :=
  match userId with
  | none => store
  | some uid =>
    fun k =>
      if k = storageKey uid then some (serialize (positionsToSave nodes))
      else store k

/-- The `localStorage` read performed by `loadNodePositions` (`page.tsx`
lines 310–331).  `JSON.parse` is modelled as an external `parse` function
returning `none` when it would throw; the `try/catch` then falls through to
the trailing `return {}`, as does a missing payload or a missing user. -/
def loadNodePositions (userId : Option String)
    (parse : String → Option (List (String × Pos)))
    (store : String → Option String) : List (String × Pos) :=
  match userId with
  | none => []
  | some uid =>
    match store (storageKey uid) with
    | some saved =>
      match parse saved with
      | some positions => positions
      | none => []
    | none => []

/-! ### Initial placement priority (`updateNodesAndEdges`) -/

/-- Position selection for a direct connection (`page.tsx` lines 569–593):
`if (existing) … else if (savedPosition) … else` computed ring placement. -/
def directConnectionPosition (existing : Option RFNode)
    (savedPosition : Option Pos) (computed : Pos) : Pos :=
  match existing with
  | some e => e.position
  | none =>
    match savedPosition with
    | some saved => saved
    | none => computed

/-- Position selection for an introduced connection (`page.tsx` lines
681–714): the same `if (existing) … else if (savedPosition) … else` chain,
with a different computed fallback. -/
def introducedConnectionPosition (existing : Option RFNode)
    (savedPosition : Option Pos) (computed : Pos) : Pos :=
  match existing with
  | some e => e.position
  | none =>
    match savedPosition with
    | some saved => saved
    | none => computed

/-! ### Edge attachment selection (`getHandleIndex`) -/

/-- `Math.atan2(dy, dx)`, the angle of the vector `(dx, dy)` in `(-π, π]`. -/
noncomputable def atan2 (dy dx : ℝ) : ℝ := Complex.arg ⟨dx, dy⟩

/-- `getHandleIndex` of `page.tsx` (lines 167–178), with `NUM_HANDLES = 64`:
angle from source to target, shifted to start at the top, wrapped into
`[0, 2π)` (the source's `((x % 2π) + 2π) % 2π` double-remainder equals the
floor-based reduction used here), scaled to `[0, 64)`, rounded (`Math.round`
is round-half-up, exactly Mathlib's `round`) and reduced mod 64. -/
noncomputable def getHandleIndex (dx dy : ℝ) : ℤ :=
  let angle := atan2 dy dx
  let normalizedAngle := angle + Real.pi / 2
  let wrappedAngle :=
    normalizedAngle - 2 * Real.pi * ⌊normalizedAngle / (2 * Real.pi)⌋
  round (wrappedAngle / (2 * Real.pi) * 64) % 64

/-- Perimeter angle of handle `index`, from the handle layout of
`PersonCircleNode` (`page.tsx` line 65): `(index / NUM_HANDLES) * 2π - π/2`. -/
noncomputable def handleAngle (index : ℤ) : ℝ :=
  (index : ℝ) / 64 * (2 * Real.pi) - Real.pi / 2

/-- Edge-attachment recomputation in `onNodesChange` (`page.tsx` lines
384–394): the source handle uses the forward direction vector, the target
handle the reversed one. -/
noncomputable def edgeHandles (sourcePos targetPos : Pos) : ℤ × ℤ :=
  let dx := targetPos.x - sourcePos.x
  let dy := targetPos.y - sourcePos.y
  (getHandleIndex dx dy, getHandleIndex (-dx) (-dy))

/-- All fields of a node other than its position (id, type, data,
draggable) — the frame of the collision resolver. -/
def nonPositionFields (n : RFNode) :
    String × Option String × PersonNodeData × Option Bool :=
  (n.id, n.type, n.data, n.draggable)

/-- Euclidean distance between two positions, the metric under which the
spec's displacement magnitudes are measured. -/
noncomputable def posDist (p q : Pos) : ℝ :=
  Real.sqrt ((q.x - p.x) * (q.x - p.x) + (q.y - p.y) * (q.y - p.y))

/-- The reserved self-anchor ids recognized by `detectAndResolveCollisions`. -/
@[reducible] def isUserCenterId (s : String) : Prop :=
  s = "user-center" ∨ s = "fallback-user-center"

/-- Sample node payload for concrete test configurations. -/
def sampleData (l : String) : PersonNodeData :=
  { label := l, person := none, isUser := none,
    gradientFrom := none, gradientTo := none }

/-- Concrete contact node, shaped like the person nodes built by
`updateNodesAndEdges`. -/
def mkNode (id : String) (p : Pos) : RFNode :=
  { id := id, type := some "person", position := p,
    data := sampleData id, draggable := none }

/-- Concrete self-anchor node, shaped like the `"user-center"` node built by
`updateNodesAndEdges` (`draggable: false`). -/
def userCenterNode (p : Pos) : RFNode :=
  { id := "user-center", type := some "person", position := p,
    data := { label := "US", person := none, isUser := some true,
              gradientFrom := none, gradientTo := none },
    draggable := some false }

/-! ### Basic lemmas about `modifyAt` -/

lemma getElem?_modifyAt {α : Type _} (ns : List α) (k m : Nat) (f : α → α) :
    (modifyAt ns k f)[m]? = if k = m then Option.map f ns[m]? else ns[m]? := by
  unfold modifyAt
  cases h : ns[k]? with
  | none =>
    by_cases hkm : k = m
    · subst hkm; simp [h]
    · simp [hkm]
  | some n =>
    have hlt : k < ns.length := by
      by_contra hge
      push_neg at hge
      rw [List.getElem?_eq_none hge] at h
      exact Option.noConfusion h
    rw [List.getElem?_set]
    by_cases hkm : k = m
    · subst hkm; simp [hlt, h]
    · simp [hkm]

lemma map_modifyAt_of_fix {α β : Type _} (ns : List α) (k : Nat) (f : α → α)
    (g : α → β) (hf : ∀ a, g (f a) = g a) :
    (modifyAt ns k f).map g = ns.map g := by
  apply List.ext_getElem?
  intro m
  rw [List.getElem?_map, List.getElem?_map, getElem?_modifyAt]
  by_cases hkm : k = m
  · subst hkm
    cases h : ns[k]? with
    | none => simp
    | some n => simp [hf]
  · simp [hkm]

lemma modifyAt_eq_self {α : Type _} (ns : List α) (k : Nat) (f : α → α)
    (hf : ∀ a, ns[k]? = some a → f a = a) : modifyAt ns k f = ns := by
  unfold modifyAt
  cases h : ns[k]? with
  | none => rfl
  | some n =>
    dsimp only
    rw [hf n h]
    apply List.ext_getElem?
    intro m
    rw [List.getElem?_set]
    by_cases hkm : k = m
    · subst hkm
      by_cases hlt : k < ns.length
      · simp [hlt, h]
      · simp [hlt]
        omega
    · simp [hkm]

/-! ### Frame of the drag-time resolver: everything but positions is kept -/

lemma nonPos_position_update (cur : RFNode) (p : Pos) :
    nonPositionFields { cur with position := p } = nonPositionFields cur := rfl

lemma map_nonPos_modifyAt_pos (ns : List RFNode) (k : Nat) (g : RFNode → Pos) :
    (modifyAt ns k fun cur => { cur with position := g cur }).map
      nonPositionFields = ns.map nonPositionFields :=
  map_modifyAt_of_fix ns k _ nonPositionFields fun _ => rfl

lemma dragStep_map_nonPos (c : Option String) (i : Nat) (nodeA : RFNode)
    (st : List RFNode × Bool) (j : Nat) :
    (dragStep c i nodeA st j).1.map nonPositionFields =
      st.1.map nonPositionFields := by
  unfold dragStep
  cases h : st.1[j]? with
  | none => rfl
  | some nodeB =>
    dsimp only
    split
    · dsimp only
      rw [map_nonPos_modifyAt_pos, map_nonPos_modifyAt_pos]
    · rfl

lemma foldl_dragStep_map_nonPos (c : Option String) (i : Nat) (nodeA : RFNode)
    (js : List Nat) (st : List RFNode × Bool) :
    ((js.foldl (dragStep c i nodeA) st).1).map nonPositionFields =
      st.1.map nonPositionFields := by
  induction js generalizing st with
  | nil => rfl
  | cons j js ih => rw [List.foldl_cons, ih, dragStep_map_nonPos]

lemma dragRow_map_nonPos (c : Option String) (n : Nat)
    (st : List RFNode × Bool) (i : Nat) :
    ((dragRow c n st i).1).map nonPositionFields = st.1.map nonPositionFields := by
  unfold dragRow
  cases h : st.1[i]? with
  | none => rfl
  | some nodeA => exact foldl_dragStep_map_nonPos c i nodeA _ st

lemma foldl_dragRow_map_nonPos (c : Option String) (n : Nat) (is : List Nat)
    (st : List RFNode × Bool) :
    ((is.foldl (dragRow c n) st).1).map nonPositionFields =
      st.1.map nonPositionFields := by
  induction is generalizing st with
  | nil => rfl
  | cons i is ih => rw [List.foldl_cons, ih, dragRow_map_nonPos]

lemma dragPass_map_nonPos (c : Option String) (ns : List RFNode) :
    ((dragPass c ns).1).map nonPositionFields = ns.map nonPositionFields := by
  unfold dragPass
  exact foldl_dragRow_map_nonPos c ns.length _ (ns, false)

lemma dragLoop_map_nonPos (c : Option String) (fuel : Nat) (ns : List RFNode) :
    ((dragLoop c fuel ns).1).map nonPositionFields = ns.map nonPositionFields := by
  induction fuel generalizing ns with
  | zero => rfl
  | succ fuel ih =>
    simp only [dragLoop]
    split
    · rw [ih, dragPass_map_nonPos]
    · exact dragPass_map_nonPos c ns

/-- C10: for every input node list and (possibly absent) active id, the
drag-time collision resolver returns a list of the same length whose nodes
carry, index by index (hence with the same ids in the same order), the same
id, type, data and draggable fields as the input; only positions can change. -/
theorem resolver_frame (ns : List RFNode) (changedNodeId : Option String) :
    (detectAndResolveCollisions ns changedNodeId).length = ns.length ∧
    (detectAndResolveCollisions ns changedNodeId).map nonPositionFields =
      ns.map nonPositionFields := by
  have h := dragLoop_map_nonPos changedNodeId maxIterations ns
  unfold detectAndResolveCollisions
  refine ⟨?_, h⟩
  have hl := congrArg List.length h
  simpa using hl

/-- C1 (code bug): when a node has both a persisted (saved) position and an
in-memory position from a prior render, both the direct-connection branch and
the introduced-connection branch of `updateNodesAndEdges` select the
in-memory position, shadowing the persisted one — the opposite of the
spec's priority order.  Evaluated at the failing input: existing position
`(1, 2)`, saved position `(3, 4)`. -/
theorem placement_prefers_existing_over_saved :
    directConnectionPosition (some (mkNode "p1" ⟨1, 2⟩)) (some ⟨3, 4⟩) ⟨5, 6⟩ =
      ⟨1, 2⟩ ∧
    introducedConnectionPosition (some (mkNode "p1" ⟨1, 2⟩)) (some ⟨3, 4⟩)
      ⟨5, 6⟩ = ⟨1, 2⟩ ∧
    (⟨1, 2⟩ : Pos) ≠ (⟨3, 4⟩ : Pos) := by
  refine ⟨rfl, rfl, ?_⟩
  intro h
  have hx : (1 : ℝ) = 3 := congrArg Pos.x h
  norm_num at hx

/-- C8: the Position Store is inert without an authenticated identity — save
writes nothing and load returns the empty map — and a missing or unparsable
payload also makes load return the empty map instead of an error. -/
theorem positionStore_absent_identity (nodes : List RFNode)
    (serialize : List (String × Pos) → String)
    (parse : String → Option (List (String × Pos)))
    (store : String → Option String) (uid s : String) :
    saveNodePositions none nodes serialize store = store ∧
    loadNodePositions none parse store = [] ∧
    (store (storageKey uid) = none →
      loadNodePositions (some uid) parse store = []) ∧
    (store (storageKey uid) = some s → parse s = none →
      loadNodePositions (some uid) parse store = []) := by
  refine ⟨rfl, rfl, ?_, ?_⟩
  · intro h
    unfold loadNodePositions
    dsimp only
    rw [h]
  · intro h hp
    unfold loadNodePositions
    dsimp only
    rw [h]
    dsimp only
    rw [hp]

/-- Witness: the store contract at concrete inputs (no user; user `"u"` with
an empty store; user `"u"` with a payload `JSON.parse` rejects). -/
theorem positionStore_absent_identity_witness :
    saveNodePositions none [] (fun _ => "") (fun _ => none) = (fun _ => none) ∧
    loadNodePositions none (fun _ => none) (fun _ => none) = [] ∧
    loadNodePositions (some "u") (fun _ => none) (fun _ => none) = [] ∧
    loadNodePositions (some "u") (fun _ => none) (fun _ => some "bad") = [] :=
  ⟨(positionStore_absent_identity [] (fun _ => "") (fun _ => none)
      (fun _ => none) "u" "bad").1,
   (positionStore_absent_identity [] (fun _ => "") (fun _ => none)
      (fun _ => none) "u" "bad").2.1,
   (positionStore_absent_identity [] (fun _ => "") (fun _ => none)
      (fun _ => none) "u" "bad").2.2.1 rfl,
   (positionStore_absent_identity [] (fun _ => "") (fun _ => none)
      (fun _ => some "bad") "u" "bad").2.2.2 rfl rfl⟩

/-! ### A drag pass that reports no collision is a no-op and certifies the
pairwise separation criterion on the final node list -/

lemma dragStep_flag_mono (c : Option String) (i : Nat) (nodeA : RFNode)
    (st : List RFNode × Bool) (j : Nat) (h : st.2 = true) :
    (dragStep c i nodeA st j).2 = true := by
  unfold dragStep
  cases hj : st.1[j]? with
  | none => exact h
  | some nodeB =>
    dsimp only
    split
    · rfl
    · exact h

lemma dragStep_cases (c : Option String) (i : Nat) (nodeA : RFNode)
    (st : List RFNode × Bool) (j : Nat) :
    (dragStep c i nodeA st j = st ∧
      ∀ nodeB, st.1[j]? = some nodeB →
        ¬ (nodeDist nodeA nodeB < MIN_DISTANCE ∧ nodeDist nodeA nodeB > 0.1)) ∨
    (dragStep c i nodeA st j).2 = true := by
  unfold dragStep
  cases hj : st.1[j]? with
  | none =>
    left
    refine ⟨rfl, ?_⟩
    intro nodeB hB
    exact Option.noConfusion hB
  | some nodeB =>
    dsimp only
    split
    · right; rfl
    · left
      rename_i hcond
      refine ⟨rfl, ?_⟩
      intro nB hB
      injection hB with hBe
      subst hBe
      exact hcond

lemma foldl_flag_true {α : Type _}
    (step : List RFNode × Bool → α → List RFNode × Bool)
    (hmono : ∀ st a, st.2 = true → (step st a).2 = true)
    (js : List α) (st : List RFNode × Bool) (h : st.2 = true) :
    (js.foldl step st).2 = true := by
  induction js generalizing st with
  | nil => exact h
  | cons j js ih =>
    rw [List.foldl_cons]
    exact ih _ (hmono st j h)

lemma foldl_noop_of_flag_false {α : Type _}
    (step : List RFNode × Bool → α → List RFNode × Bool)
    (hmono : ∀ st a, st.2 = true → (step st a).2 = true)
    (hdich : ∀ st a, step st a = st ∨ (step st a).2 = true)
    (js : List α) (st : List RFNode × Bool)
    (h : (js.foldl step st).2 = false) :
    js.foldl step st = st ∧ ∀ a ∈ js, step st a = st := by
  induction js generalizing st with
  | nil => exact ⟨rfl, by simp⟩
  | cons j js ih =>
    rw [List.foldl_cons] at h ⊢
    rcases hdich st j with hid | htrue
    · rw [hid] at h ⊢
      obtain ⟨h1, h2⟩ := ih st h
      refine ⟨h1, ?_⟩
      intro a ha
      rcases List.mem_cons.mp ha with rfl | ha'
      · exact hid
      · exact h2 a ha'
    · exfalso
      have ht := foldl_flag_true step hmono js _ htrue
      rw [ht] at h
      exact Bool.noConfusion h

lemma foldl_fixed {α β : Type _} (step : β → α → β) (js : List α) (st : β)
    (h : ∀ a ∈ js, step st a = st) : js.foldl step st = st := by
  induction js with
  | nil => rfl
  | cons j js ih =>
    rw [List.foldl_cons, h j (List.mem_cons_self j js)]
    exact ih fun a ha => h a (List.mem_cons_of_mem j ha)

lemma dragRow_flag_mono (c : Option String) (n : Nat) (st : List RFNode × Bool)
    (i : Nat) (h : st.2 = true) : (dragRow c n st i).2 = true := by
  unfold dragRow
  cases hi : st.1[i]? with
  | none => exact h
  | some nodeA => exact foldl_flag_true _ (dragStep_flag_mono c i nodeA) _ st h

lemma dragRow_cases (c : Option String) (n : Nat) (st : List RFNode × Bool)
    (i : Nat) : dragRow c n st i = st ∨ (dragRow c n st i).2 = true := by
  unfold dragRow
  cases hi : st.1[i]? with
  | none => left; rfl
  | some nodeA =>
    dsimp only
    cases hb : ((List.range' (i + 1) (n - (i + 1))).foldl
        (dragStep c i nodeA) st).2 with
    | false =>
      left
      exact (foldl_noop_of_flag_false _ (dragStep_flag_mono c i nodeA)
        (fun st' j => Or.imp And.left id (dragStep_cases c i nodeA st' j))
        _ st hb).1
    | true => right; rfl

lemma dragRow_noop_sep (c : Option String) (n : Nat) (ns : List RFNode) (i : Nat)
    (h : dragRow c n (ns, false) i = (ns, false)) :
    ∀ (j : Nat) (a b : RFNode), ns[i]? = some a →
      j ∈ List.range' (i + 1) (n - (i + 1)) →
      ns[j]? = some b →
      ¬ (nodeDist a b < MIN_DISTANCE ∧ nodeDist a b > 0.1) := by
  intro j a b ha hj hb
  unfold dragRow at h
  dsimp only at h
  rw [ha] at h
  dsimp only at h
  have hflag : ((List.range' (i + 1) (n - (i + 1))).foldl
      (dragStep c i a) (ns, false)).2 = false := by rw [h]
  obtain ⟨-, h2⟩ := foldl_noop_of_flag_false _ (dragStep_flag_mono c i a)
    (fun st' j' => Or.imp And.left id (dragStep_cases c i a st' j'))
    _ _ hflag
  have hstep := h2 j hj
  rcases dragStep_cases c i a (ns, false) j with ⟨-, hfar⟩ | htrue
  · exact hfar b hb
  · rw [hstep] at htrue
    exact Bool.noConfusion htrue

lemma dragPass_noop (c : Option String) (ns : List RFNode)
    (h : (dragPass c ns).2 = false) :
    (dragPass c ns).1 = ns ∧
    ∀ (i j : Nat) (a b : RFNode), i < j → ns[i]? = some a → ns[j]? = some b →
      ¬ (nodeDist a b < MIN_DISTANCE ∧ nodeDist a b > 0.1) := by
  unfold dragPass at h ⊢
  obtain ⟨h1, h2⟩ := foldl_noop_of_flag_false (dragRow c ns.length)
    (dragRow_flag_mono c ns.length) (dragRow_cases c ns.length) _ _ h
  constructor
  · rw [h1]
  · intro i j a b hij ha hb
    have hjlt : j < ns.length := by
      by_contra hge
      push_neg at hge
      rw [List.getElem?_eq_none hge] at hb
      exact Option.noConfusion hb
    have hmem : i ∈ List.range ns.length :=
      List.mem_range.mpr (Nat.lt_trans hij hjlt)
    have hjmem : j ∈ List.range' (i + 1) (ns.length - (i + 1)) := by
      rw [List.mem_range'_1]
      omega
    exact dragRow_noop_sep c ns.length ns i (h2 i hmem) j a b ha hjmem hb

lemma dragLoop_converged (c : Option String) (fuel : Nat) (ns : List RFNode)
    (h : (dragLoop c fuel ns).2 = true) :
    ∀ (i j : Nat) (a b : RFNode), i < j →
      (dragLoop c fuel ns).1[i]? = some a →
      (dragLoop c fuel ns).1[j]? = some b →
      ¬ (nodeDist a b < MIN_DISTANCE ∧ nodeDist a b > 0.1) := by
  induction fuel generalizing ns with
  | zero => exact Bool.noConfusion h
  | succ fuel ih =>
    intro i j a b hij ha hb
    rw [dragLoop] at h ha hb
    by_cases hp : (dragPass c ns).2 = true
    · rw [if_pos hp] at h ha hb
      exact ih (dragPass c ns).1 h i j a b hij ha hb
    · rw [if_neg hp] at ha hb
      dsimp only at ha hb
      have hp' : (dragPass c ns).2 = false := by
        cases hb2 : (dragPass c ns).2 with
        | false => rfl
        | true => exact absurd hb2 hp
      obtain ⟨h1, h2⟩ := dragPass_noop c ns hp'
      rw [h1] at ha hb
      exact h2 i j a b hij ha hb

/-- C6 (amended): when the resolver's loop stops because a pass found no
collision (rather than by exhausting the 10-iteration cap), every pair of
distinct nodes in the result is either at distance of at least
`MIN_DISTANCE` or at distance of at most the near-coincident epsilon `0.1`
(such pairs are skipped by the collision test `distance > 0.1`, so they can
remain closer than the minimum separation even though the cap was not
exhausted). -/
theorem resolver_separation_or_cap (ns : List RFNode) (c : Option String)
    (h : (dragLoop c maxIterations ns).2 = true) :
    ∀ (i j : Nat) (a b : RFNode), i < j →
      (detectAndResolveCollisions ns c)[i]? = some a →
      (detectAndResolveCollisions ns c)[j]? = some b →
      nodeDist a b ≤ 0.1 ∨ MIN_DISTANCE ≤ nodeDist a b := by
  intro i j a b hij ha hb
  unfold detectAndResolveCollisions at ha hb
  have hn := dragLoop_converged c maxIterations ns h i j a b hij ha hb
  rcases not_and_or.mp hn with h1 | h2
  · right; exact not_lt.mp h1
  · left; exact not_lt.mp h2

lemma MIN_DISTANCE_pos : (0 : ℝ) < MIN_DISTANCE := by
  unfold MIN_DISTANCE NODE_RADIUS
  norm_num

lemma dragStep_noop (c : Option String) (i : Nat) (nodeA : RFNode)
    (st : List RFNode × Bool) (j : Nat)
    (hfar : ∀ nodeB, st.1[j]? = some nodeB →
      ¬ (nodeDist nodeA nodeB < MIN_DISTANCE ∧ nodeDist nodeA nodeB > 0.1)) :
    dragStep c i nodeA st j = st := by
  unfold dragStep
  cases hj : st.1[j]? with
  | none => rfl
  | some nodeB =>
    dsimp only
    split
    · rename_i hcond
      exact absurd hcond (hfar nodeB hj)
    · rfl

lemma dragPass_of_separated (c : Option String) (ns : List RFNode)
    (hsep : ∀ (i j : Nat) (a b : RFNode), i < j → ns[i]? = some a →
      ns[j]? = some b → MIN_DISTANCE ≤ nodeDist a b) :
    dragPass c ns = (ns, false) := by
  unfold dragPass
  apply foldl_fixed
  intro i _
  unfold dragRow
  dsimp only
  cases ha : ns[i]? with
  | none => rfl
  | some nodeA =>
    dsimp only
    apply foldl_fixed
    intro j hj
    apply dragStep_noop
    intro nodeB hB
    dsimp only at hB
    have hij : i < j := by
      have := (List.mem_range'_1.mp hj).1
      omega
    intro hcond
    exact absurd hcond.1 (not_lt.mpr (hsep i j nodeA nodeB hij ha hB))

lemma dragLoop_of_separated (c : Option String) (ns : List RFNode) (fuel : Nat)
    (hsep : ∀ (i j : Nat) (a b : RFNode), i < j → ns[i]? = some a →
      ns[j]? = some b → MIN_DISTANCE ≤ nodeDist a b) :
    dragLoop c (fuel + 1) ns = (ns, true) := by
  rw [dragLoop, dragPass_of_separated c ns hsep]
  simp

/-- C7: applying the drag-time resolver to a node list in which every pair of
distinct nodes is already at distance ≥ `MIN_DISTANCE` returns every node
unchanged; distance exactly `MIN_DISTANCE` is not a collision (the test is a
strict `<`), so no correction is applied. -/
theorem resolver_noop_on_separated (ns : List RFNode) (c : Option String)
    (hsep : ∀ (i j : Nat) (a b : RFNode), i < j → ns[i]? = some a →
      ns[j]? = some b → MIN_DISTANCE ≤ nodeDist a b) :
    detectAndResolveCollisions ns c = ns := by
  unfold detectAndResolveCollisions
  rw [show maxIterations = 9 + 1 from rfl, dragLoop_of_separated c ns 9 hsep]

/-- Witness: two nodes exactly at the separation threshold `31.25` are left
untouched by the resolver. -/
theorem resolver_noop_on_separated_witness :
    detectAndResolveCollisions
      [mkNode "a" ⟨0, 0⟩, mkNode "b" ⟨31.25, 0⟩] none =
      [mkNode "a" ⟨0, 0⟩, mkNode "b" ⟨31.25, 0⟩] := by
  apply resolver_noop_on_separated
  intro i j a b hij ha hb
  match j with
  | 0 => omega
  | 1 =>
    have hi : i = 0 := by omega
    subst hi
    simp only [List.getElem?_cons_zero] at ha
    simp only [List.getElem?_cons_succ, List.getElem?_cons_zero] at hb
    injection ha with ha
    injection hb with hb
    subst ha
    subst hb
    rw [nodeDist]
    rw [Real.le_sqrt' MIN_DISTANCE_pos]
    unfold MIN_DISTANCE NODE_RADIUS mkNode
    norm_num
  | j + 2 =>
    simp only [List.getElem?_cons_succ, List.getElem?_nil] at hb
    exact Option.noConfusion hb

/-- Witness for the separation property: a singleton list converges at once
(the loop flag reports convergence, not cap exhaustion). -/
theorem resolver_separation_or_cap_witness :
    (dragLoop none maxIterations [mkNode "a" ⟨0, 0⟩]).2 = true ∧
    ∀ (i j : Nat) (a b : RFNode), i < j →
      (detectAndResolveCollisions [mkNode "a" ⟨0, 0⟩] none)[i]? = some a →
      (detectAndResolveCollisions [mkNode "a" ⟨0, 0⟩] none)[j]? = some b →
      nodeDist a b ≤ 0.1 ∨ MIN_DISTANCE ≤ nodeDist a b := by
  have hsep : ∀ (i j : Nat) (a b : RFNode), i < j →
      ([mkNode "a" ⟨0, 0⟩] : List RFNode)[i]? = some a →
      ([mkNode "a" ⟨0, 0⟩] : List RFNode)[j]? = some b →
      MIN_DISTANCE ≤ nodeDist a b := by
    intro i j a b hij ha hb
    match j with
    | 0 => omega
    | j + 1 =>
      simp only [List.getElem?_cons_succ, List.getElem?_nil] at hb
      exact Option.noConfusion hb
  have hconv : (dragLoop none maxIterations [mkNode "a" ⟨0, 0⟩]).2 = true := by
    rw [show maxIterations = 9 + 1 from rfl,
      dragLoop_of_separated none _ 9 hsep]
  exact ⟨hconv, resolver_separation_or_cap _ none hconv⟩

/-- C6 counterexample: two distinct non-anchor nodes at identical positions.
The pair's distance 0 fails the `distance > 0.1` guard, so the very first
pass reports no collision: the loop stops with the iteration cap *not*
exhausted, yet the pair remains at distance 0 < `MIN_DISTANCE`.  The claim's
dichotomy (separated, or cap exhausted) is therefore false as stated. -/
theorem coincident_pair_stays_cex :
    (dragLoop none maxIterations [mkNode "a" ⟨0, 0⟩, mkNode "b" ⟨0, 0⟩]).2 = true ∧
    detectAndResolveCollisions [mkNode "a" ⟨0, 0⟩, mkNode "b" ⟨0, 0⟩] none =
      [mkNode "a" ⟨0, 0⟩, mkNode "b" ⟨0, 0⟩] ∧
    nodeDist (mkNode "a" ⟨0, 0⟩) (mkNode "b" ⟨0, 0⟩) = 0 ∧
    ¬ MIN_DISTANCE ≤ nodeDist (mkNode "a" ⟨0, 0⟩) (mkNode "b" ⟨0, 0⟩) := by
  have hdist : nodeDist (mkNode "a" ⟨0, 0⟩) (mkNode "b" ⟨0, 0⟩) = 0 := by
    unfold nodeDist mkNode
    norm_num
  have hfar : ∀ (nodeA nodeB : RFNode),
      nodeA = mkNode "a" ⟨0, 0⟩ → nodeB = mkNode "b" ⟨0, 0⟩ →
      ¬ (nodeDist nodeA nodeB < MIN_DISTANCE ∧ nodeDist nodeA nodeB > 0.1) := by
    intro nodeA nodeB hA hB hcond
    rw [hA, hB, hdist] at hcond
    norm_num at hcond
  have hpass : dragPass none [mkNode "a" ⟨0, 0⟩, mkNode "b" ⟨0, 0⟩] =
      ([mkNode "a" ⟨0, 0⟩, mkNode "b" ⟨0, 0⟩], false) := by
    unfold dragPass
    rw [show ([mkNode "a" ⟨0, 0⟩, mkNode "b" ⟨0, 0⟩] : List RFNode).length = 2
        from rfl,
      show List.range 2 = [0, 1] from rfl,
      List.foldl_cons]
    have hrow0 : dragRow none 2 ([mkNode "a" ⟨0, 0⟩, mkNode "b" ⟨0, 0⟩], false) 0 =
        ([mkNode "a" ⟨0, 0⟩, mkNode "b" ⟨0, 0⟩], false) := by
      unfold dragRow
      dsimp only
      simp only [List.getElem?_cons_zero]
      rw [show (2 : Nat) - (0 + 1) = 1 from rfl,
        show List.range' 1 1 = [1] from rfl,
        List.foldl_cons, List.foldl_nil]
      apply dragStep_noop
      intro nodeB hB
      simp only [List.getElem?_cons_succ, List.getElem?_cons_zero] at hB
      injection hB with hB
      exact hfar _ nodeB rfl hB.symm
    rw [hrow0, List.foldl_cons, List.foldl_nil]
    unfold dragRow
    dsimp only
    simp only [List.getElem?_cons_succ, List.getElem?_cons_zero]
    rw [show (2 : Nat) - (1 + 1) = 0 from rfl, show List.range' 2 0 = [] from rfl,
      List.foldl_nil]
  have hloop : dragLoop none maxIterations
      [mkNode "a" ⟨0, 0⟩, mkNode "b" ⟨0, 0⟩] =
      ([mkNode "a" ⟨0, 0⟩, mkNode "b" ⟨0, 0⟩], true) := by
    rw [show maxIterations = 9 + 1 from rfl, dragLoop, hpass]
    simp
  refine ⟨by rw [hloop], ?_, hdist, ?_⟩
  · unfold detectAndResolveCollisions
    rw [hloop]
  · rw [hdist]
    exact not_le.mpr MIN_DISTANCE_pos

/-! ### Anchor invariance of the drag-time resolver -/

lemma dragPushes_anchorA (c : Option String) (nodeA nodeB : RFNode) (p : ℝ)
    (h : isUserCenterId nodeA.id) : dragPushes c nodeA nodeB p = (0, p) := by
  unfold dragPushes
  rw [if_pos h]

lemma dragPushes_anchorB (c : Option String) (nodeA nodeB : RFNode) (p : ℝ)
    (hA : ¬ isUserCenterId nodeA.id) (hB : isUserCenterId nodeB.id) :
    dragPushes c nodeA nodeB p = (p, 0) := by
  unfold dragPushes
  rw [if_neg hA, if_pos hB]

lemma dragPushes_plain (c : Option String) (nodeA nodeB : RFNode) (p : ℝ)
    (hA : ¬ isUserCenterId nodeA.id) (hB : ¬ isUserCenterId nodeB.id) :
    dragPushes c nodeA nodeB p =
      ((if c = some nodeA.id then p * 0.15 else p * 0.25),
       (if c = some nodeB.id then p * 0.15 else p * 0.25)) := by
  unfold dragPushes
  rw [if_neg hA, if_neg hB]

lemma position_update_add_zero (n : RFNode) (u v : ℝ) :
    ({ n with position := ⟨n.position.x + u * 0, n.position.y + v * 0⟩ } :
      RFNode) = n := by
  cases n with
  | mk id ty pos data drag => cases pos; simp

lemma position_update_sub_zero (n : RFNode) (u v : ℝ) :
    ({ n with position := ⟨n.position.x - u * 0, n.position.y - v * 0⟩ } :
      RFNode) = n := by
  cases n with
  | mk id ty pos data drag => cases pos; simp

lemma dragStep_preserves_anchor (c : Option String) (i j k : Nat)
    (nodeA nk : RFNode) (st : List RFNode × Bool)
    (hij : i ≠ j) (hk : st.1[k]? = some nk) (hanc : isUserCenterId nk.id)
    (hA : i = k → isUserCenterId nodeA.id)
    (hA' : i ≠ k → ¬ isUserCenterId nodeA.id) :
    (dragStep c i nodeA st j).1[k]? = some nk := by
  unfold dragStep
  cases hj : st.1[j]? with
  | none => exact hk
  | some nodeB =>
    dsimp only
    split
    · dsimp only
      by_cases hjk : j = k
      · have hik : i ≠ k := fun h => hij (h.trans hjk.symm)
        have hBnk : nodeB = nk := by
          rw [hjk] at hj
          rw [hj] at hk
          injection hk
        have hancB : isUserCenterId nodeB.id := by
          rw [hBnk]
          exact hanc
        rw [dragPushes_anchorB c nodeA nodeB _ (hA' hik) hancB]
        rw [getElem?_modifyAt, getElem?_modifyAt]
        rw [if_pos hjk, if_neg hik, hk]
        simp only [Option.map_some']
        rw [position_update_add_zero]
      · by_cases hik : i = k
        · rw [dragPushes_anchorA c nodeA nodeB _ (hA hik)]
          rw [getElem?_modifyAt, getElem?_modifyAt]
          rw [if_neg hjk, if_pos hik, hk]
          simp only [Option.map_some']
          rw [position_update_sub_zero]
        · rw [getElem?_modifyAt, getElem?_modifyAt]
          rw [if_neg hjk, if_neg hik]
          exact hk
    · exact hk

lemma foldl_dragStep_preserves_anchor (c : Option String) (i k : Nat)
    (nodeA nk : RFNode) (js : List Nat) (st : List RFNode × Bool)
    (hk : st.1[k]? = some nk) (hanc : isUserCenterId nk.id)
    (hjs : ∀ j ∈ js, i ≠ j)
    (hA : i = k → isUserCenterId nodeA.id)
    (hA' : i ≠ k → ¬ isUserCenterId nodeA.id) :
    ((js.foldl (dragStep c i nodeA) st).1)[k]? = some nk := by
  induction js generalizing st with
  | nil => exact hk
  | cons j js ih =>
    rw [List.foldl_cons]
    exact ih _
      (dragStep_preserves_anchor c i j k nodeA nk st
        (hjs j (List.mem_cons_self j js)) hk hanc hA hA')
      fun j' hj' => hjs j' (List.mem_cons_of_mem j hj')

lemma dragRow_preserves_anchor (c : Option String) (n i k : Nat)
    (nk : RFNode) (st : List RFNode × Bool)
    (hk : st.1[k]? = some nk) (hanc : isUserCenterId nk.id)
    (hothers : ∀ (m : Nat) (nm : RFNode), m ≠ k → st.1[m]? = some nm →
      ¬ isUserCenterId nm.id) :
    ((dragRow c n st i).1)[k]? = some nk := by
  unfold dragRow
  cases hi : st.1[i]? with
  | none => exact hk
  | some nodeA =>
    dsimp only
    refine foldl_dragStep_preserves_anchor c i k nodeA nk _ st hk hanc ?_ ?_ ?_
    · intro j hj
      have := (List.mem_range'_1.mp hj).1
      omega
    · intro hik
      subst hik
      rw [hi] at hk
      injection hk with h
      rw [h]
      exact hanc
    · intro hik
      exact hothers i nodeA hik hi

lemma getElem?_id_transport {ns ms : List RFNode}
    (h : ns.map RFNode.id = ms.map RFNode.id) {m : Nat} {nm : RFNode}
    (hm : ns[m]? = some nm) :
    ∃ pm, ms[m]? = some pm ∧ pm.id = nm.id := by
  have h2 := congrArg (fun l => l[m]?) h
  simp only [List.getElem?_map, hm] at h2
  cases hq : ms[m]? with
  | none =>
    rw [hq] at h2
    exact Option.noConfusion h2
  | some pm =>
    rw [hq] at h2
    refine ⟨pm, rfl, ?_⟩
    injection h2 with h3
    exact h3.symm

lemma map_id_of_map_nonPos {ns ms : List RFNode}
    (h : ns.map nonPositionFields = ms.map nonPositionFields) :
    ns.map RFNode.id = ms.map RFNode.id := by
  have h1 := congrArg (List.map Prod.fst) h
  rw [List.map_map, List.map_map] at h1
  exact h1

lemma foldl_dragRow_preserves_anchor (c : Option String) (n k : Nat)
    (nk : RFNode) (ns0 : List RFNode) (is : List Nat) (st : List RFNode × Bool)
    (hk : st.1[k]? = some nk) (hanc : isUserCenterId nk.id)
    (hmap : st.1.map RFNode.id = ns0.map RFNode.id)
    (hothers : ∀ (m : Nat) (nm : RFNode), m ≠ k → ns0[m]? = some nm →
      ¬ isUserCenterId nm.id) :
    ((is.foldl (dragRow c n) st).1)[k]? = some nk := by
  induction is generalizing st with
  | nil => exact hk
  | cons i is ih =>
    rw [List.foldl_cons]
    have hothers' : ∀ (m : Nat) (nm : RFNode), m ≠ k → st.1[m]? = some nm →
        ¬ isUserCenterId nm.id := by
      intro m nm hm hsm
      obtain ⟨pm, hpm, hid⟩ := getElem?_id_transport hmap hsm
      rw [← hid]
      exact hothers m pm hm hpm
    refine ih _ (dragRow_preserves_anchor c n i k nk st hk hanc hothers') ?_
    rw [map_id_of_map_nonPos (dragRow_map_nonPos c n st i), hmap]

lemma dragLoop_preserves_anchor (c : Option String) (fuel k : Nat)
    (nk : RFNode) (ns : List RFNode)
    (hk : ns[k]? = some nk) (hanc : isUserCenterId nk.id)
    (hothers : ∀ (m : Nat) (nm : RFNode), m ≠ k → ns[m]? = some nm →
      ¬ isUserCenterId nm.id) :
    ((dragLoop c fuel ns).1)[k]? = some nk := by
  induction fuel generalizing ns with
  | zero => exact hk
  | succ fuel ih =>
    have hpassk : ((dragPass c ns).1)[k]? = some nk := by
      unfold dragPass
      exact foldl_dragRow_preserves_anchor c ns.length k nk ns _ _ hk hanc rfl
        hothers
    have hothers' : ∀ (m : Nat) (nm : RFNode), m ≠ k →
        ((dragPass c ns).1)[m]? = some nm → ¬ isUserCenterId nm.id := by
      intro m nm hm hsm
      have hmap : (dragPass c ns).1.map RFNode.id = ns.map RFNode.id :=
        map_id_of_map_nonPos (dragPass_map_nonPos c ns)
      obtain ⟨pm, hpm, hid⟩ := getElem?_id_transport hmap hsm
      rw [← hid]
      exact hothers m pm hm hpm
    rw [dragLoop]
    by_cases hp : (dragPass c ns).2 = true
    · rw [if_pos hp]
      exact ih (dragPass c ns).1 hpassk hothers'
    · rw [if_neg hp]
      exact hpassk

/-- C2: for every input node list containing the self-anchor (and no other
node carrying a reserved anchor id) and every possibly-absent active id, the
self-anchor's position after a full run of the drag-time collision resolver
equals its position before the run, whatever the other nodes'
configuration. -/
theorem resolver_anchor_invariance (ns : List RFNode) (c : Option String)
    (k : Nat) (nk : RFNode) (hk : ns[k]? = some nk)
    (hanc : isUserCenterId nk.id)
    (hothers : ∀ (m : Nat) (nm : RFNode), m ≠ k → ns[m]? = some nm →
      ¬ isUserCenterId nm.id) :
    ((detectAndResolveCollisions ns c)[k]?).map (fun n => n.position) =
      some nk.position := by
  unfold detectAndResolveCollisions
  rw [dragLoop_preserves_anchor c maxIterations k nk ns hk hanc hothers]
  rfl

/-- Witness: the anchor at the origin colliding with a node 10px away keeps
its exact position through a resolver run. -/
theorem resolver_anchor_invariance_witness :
    ((detectAndResolveCollisions
        [userCenterNode ⟨0, 0⟩, mkNode "b" ⟨10, 0⟩] none)[0]?).map
      (fun n => n.position) = some (⟨0, 0⟩ : Pos) := by
  refine resolver_anchor_invariance
    [userCenterNode ⟨0, 0⟩, mkNode "b" ⟨10, 0⟩] none 0 (userCenterNode ⟨0, 0⟩)
    rfl (Or.inl rfl) ?_
  intro m nm hm hsm
  match m with
  | 0 => exact absurd rfl hm
  | 1 =>
    simp only [List.getElem?_cons_succ, List.getElem?_cons_zero] at hsm
    injection hsm with h2
    rw [← h2]
    simp [mkNode]
  | m + 2 =>
    simp only [List.getElem?_cons_succ, List.getElem?_nil] at hsm
    exact Option.noConfusion hsm

/-! ### Displacement magnitudes of a single pair correction -/

lemma posDist_offset (p : Pos) (a b : ℝ) :
    posDist p ⟨p.x + a, p.y + b⟩ = Real.sqrt (a * a + b * b) := by
  unfold posDist
  dsimp only
  congr 1
  ring

lemma posDist_offset_sub (p : Pos) (a b : ℝ) :
    posDist p ⟨p.x - a, p.y - b⟩ = Real.sqrt (a * a + b * b) := by
  unfold posDist
  dsimp only
  congr 1
  ring

lemma unit_scaled_dist (dx dy t : ℝ)
    (hd : 0 < Real.sqrt (dx * dx + dy * dy)) :
    Real.sqrt ((dx / Real.sqrt (dx * dx + dy * dy) * t) *
        (dx / Real.sqrt (dx * dx + dy * dy) * t) +
      (dy / Real.sqrt (dx * dx + dy * dy) * t) *
        (dy / Real.sqrt (dx * dx + dy * dy) * t)) = |t| := by
  have hnn : (0 : ℝ) ≤ dx * dx + dy * dy :=
    add_nonneg (mul_self_nonneg dx) (mul_self_nonneg dy)
  have hs : Real.sqrt (dx * dx + dy * dy) * Real.sqrt (dx * dx + dy * dy) =
      dx * dx + dy * dy := Real.mul_self_sqrt hnn
  have harg : (0 : ℝ) < dx * dx + dy * dy := Real.sqrt_pos.mp hd
  have key : (dx / Real.sqrt (dx * dx + dy * dy) * t) *
        (dx / Real.sqrt (dx * dx + dy * dy) * t) +
      (dy / Real.sqrt (dx * dx + dy * dy) * t) *
        (dy / Real.sqrt (dx * dx + dy * dy) * t) = t * t := by
    have h1 : (dx / Real.sqrt (dx * dx + dy * dy) * t) *
          (dx / Real.sqrt (dx * dx + dy * dy) * t) +
        (dy / Real.sqrt (dx * dx + dy * dy) * t) *
          (dy / Real.sqrt (dx * dx + dy * dy) * t) =
        (dx * dx + dy * dy) /
          (Real.sqrt (dx * dx + dy * dy) * Real.sqrt (dx * dx + dy * dy)) *
          (t * t) := by
      ring
    rw [h1, hs, div_self (ne_of_gt harg), one_mul]
  rw [key, Real.sqrt_mul_self_eq_abs]

lemma struct_sub_disp (p : Pos) (dx dy t : ℝ)
    (hpos : 0 < Real.sqrt (dx * dx + dy * dy)) (ht : 0 ≤ t) :
    posDist p ⟨p.x - dx / Real.sqrt (dx * dx + dy * dy) * t,
               p.y - dy / Real.sqrt (dx * dx + dy * dy) * t⟩ = t := by
  rw [posDist_offset_sub, unit_scaled_dist dx dy t hpos, abs_of_nonneg ht]

lemma struct_add_disp (p : Pos) (dx dy t : ℝ)
    (hpos : 0 < Real.sqrt (dx * dx + dy * dy)) (ht : 0 ≤ t) :
    posDist p ⟨p.x + dx / Real.sqrt (dx * dx + dy * dy) * t,
               p.y + dy / Real.sqrt (dx * dx + dy * dy) * t⟩ = t := by
  rw [posDist_offset, unit_scaled_dist dx dy t hpos, abs_of_nonneg ht]

lemma pushDistance_pos {d : ℝ} (hd : d < MIN_DISTANCE) :
    0 < MIN_DISTANCE - d + BOUNCE_FORCE := by
  unfold BOUNCE_FORCE
  linarith

lemma nodeDist_pos_of_col {nodeA nodeB : RFNode}
    (hcol : nodeDist nodeA nodeB < MIN_DISTANCE ∧ nodeDist nodeA nodeB > 0.1) :
    0 < nodeDist nodeA nodeB := lt_trans (by norm_num) hcol.2

/-- Output of one corrected pair in the drag pass: the `i` entry is updated
from its current value along `-(unit vector)` by `pushA`, the `j` entry along
`+(unit vector)` by `pushB`, with `(pushA, pushB) = dragPushes …`. -/
lemma dragStep_collision_gets (c : Option String) (i j : Nat)
    (nodeA nodeB curA : RFNode) (st : List RFNode × Bool) (hij : i ≠ j)
    (hA : st.1[i]? = some curA) (hB : st.1[j]? = some nodeB)
    (hcol : nodeDist nodeA nodeB < MIN_DISTANCE ∧ nodeDist nodeA nodeB > 0.1) :
    (dragStep c i nodeA st j).1[i]? = some
      { curA with position :=
          ⟨curA.position.x - (nodeB.position.x - nodeA.position.x) /
              nodeDist nodeA nodeB *
              (dragPushes c nodeA nodeB
                (MIN_DISTANCE - nodeDist nodeA nodeB + BOUNCE_FORCE)).1,
           curA.position.y - (nodeB.position.y - nodeA.position.y) /
              nodeDist nodeA nodeB *
              (dragPushes c nodeA nodeB
                (MIN_DISTANCE - nodeDist nodeA nodeB + BOUNCE_FORCE)).1⟩ } ∧
    (dragStep c i nodeA st j).1[j]? = some
      { nodeB with position :=
          ⟨nodeB.position.x + (nodeB.position.x - nodeA.position.x) /
              nodeDist nodeA nodeB *
              (dragPushes c nodeA nodeB
                (MIN_DISTANCE - nodeDist nodeA nodeB + BOUNCE_FORCE)).2,
           nodeB.position.y + (nodeB.position.y - nodeA.position.y) /
              nodeDist nodeA nodeB *
              (dragPushes c nodeA nodeB
                (MIN_DISTANCE - nodeDist nodeA nodeB + BOUNCE_FORCE)).2⟩ } := by
  unfold dragStep
  rw [hB]
  dsimp only
  rw [if_pos hcol]
  dsimp only
  constructor
  · rw [getElem?_modifyAt, getElem?_modifyAt, if_neg (Ne.symm hij),
      if_pos rfl, hA]
    simp only [Option.map_some']
  · rw [getElem?_modifyAt, if_pos rfl, getElem?_modifyAt, if_neg hij, hB]
    simp only [Option.map_some']

lemma MIN_DISTANCE_val : MIN_DISTANCE = 31.25 := by
  unfold MIN_DISTANCE NODE_RADIUS
  norm_num

lemma dist_uc_b10 : nodeDist (userCenterNode ⟨0, 0⟩) (mkNode "b" ⟨10, 0⟩) = 10 := by
  unfold nodeDist userCenterNode mkNode
  dsimp only
  rw [show ((10 : ℝ) - 0) * ((10 : ℝ) - 0) + ((0 : ℝ) - 0) * ((0 : ℝ) - 0) =
    10 ^ 2 by norm_num]
  exact Real.sqrt_sq (by norm_num)

lemma dist_a_b10 : nodeDist (mkNode "a" ⟨0, 0⟩) (mkNode "b" ⟨10, 0⟩) = 10 := by
  unfold nodeDist mkNode
  dsimp only
  rw [show ((10 : ℝ) - 0) * ((10 : ℝ) - 0) + ((0 : ℝ) - 0) * ((0 : ℝ) - 0) =
    10 ^ 2 by norm_num]
  exact Real.sqrt_sq (by norm_num)

lemma hcol_uc_b10 :
    nodeDist (userCenterNode ⟨0, 0⟩) (mkNode "b" ⟨10, 0⟩) < MIN_DISTANCE ∧
    nodeDist (userCenterNode ⟨0, 0⟩) (mkNode "b" ⟨10, 0⟩) > 0.1 := by
  rw [dist_uc_b10, MIN_DISTANCE_val]
  norm_num

lemma hcol_a_b10 :
    nodeDist (mkNode "a" ⟨0, 0⟩) (mkNode "b" ⟨10, 0⟩) < MIN_DISTANCE ∧
    nodeDist (mkNode "a" ⟨0, 0⟩) (mkNode "b" ⟨10, 0⟩) > 0.1 := by
  rw [dist_a_b10, MIN_DISTANCE_val]
  norm_num

/-- C3 (amended): in the drag-time pass, a corrected colliding pair
containing the self-anchor gives the anchor zero push (its entry is
unchanged) and its partner the full `pushDistance`; in the initial-layout
settle pass, however, pairs containing the non-draggable `"user-center"`
node are skipped outright — both as the inner (`j`) node and as a whole row
(`i`) — so there the anchor's partner receives no push at all. -/
theorem anchor_pair_push (c : Option String) (n i j : Nat)
    (nodeA nodeB curA : RFNode) (st : List RFNode × Bool) (hij : i ≠ j)
    (hA : st.1[i]? = some curA) (hB : st.1[j]? = some nodeB)
    (hcol : nodeDist nodeA nodeB < MIN_DISTANCE ∧ nodeDist nodeA nodeB > 0.1) :
    (isUserCenterId nodeA.id →
      (dragStep c i nodeA st j).1[i]? = some curA ∧
      ∃ nodeB', (dragStep c i nodeA st j).1[j]? = some nodeB' ∧
        posDist nodeB.position nodeB'.position =
          MIN_DISTANCE - nodeDist nodeA nodeB + BOUNCE_FORCE) ∧
    (¬ isUserCenterId nodeA.id → isUserCenterId nodeB.id →
      (dragStep c i nodeA st j).1[j]? = some nodeB ∧
      ∃ nodeA', (dragStep c i nodeA st j).1[i]? = some nodeA' ∧
        posDist curA.position nodeA'.position =
          MIN_DISTANCE - nodeDist nodeA nodeB + BOUNCE_FORCE) ∧
    (nodeB.id = "user-center" → nodeB.draggable ≠ some true →
      settleStep i nodeA st j = st) ∧
    (∀ stA : RFNode, st.1[i]? = some stA → stA.id = "user-center" →
      stA.draggable ≠ some true → settleRow n st i = st) := by
  have hdpos : 0 < nodeDist nodeA nodeB := nodeDist_pos_of_col hcol
  have hppos : 0 < MIN_DISTANCE - nodeDist nodeA nodeB + BOUNCE_FORCE :=
    pushDistance_pos hcol.1
  refine ⟨?_, ?_, ?_, ?_⟩
  · intro hanc
    obtain ⟨hgi, hgj⟩ :=
      dragStep_collision_gets c i j nodeA nodeB curA st hij hA hB hcol
    rw [dragPushes_anchorA c nodeA nodeB _ hanc] at hgi hgj
    dsimp only at hgi hgj
    rw [position_update_sub_zero] at hgi
    refine ⟨hgi, _, hgj, ?_⟩
    exact struct_add_disp nodeB.position _ _ _ hdpos (le_of_lt hppos)
  · intro hAn hBanc
    obtain ⟨hgi, hgj⟩ :=
      dragStep_collision_gets c i j nodeA nodeB curA st hij hA hB hcol
    rw [dragPushes_anchorB c nodeA nodeB _ hAn hBanc] at hgi hgj
    dsimp only at hgi hgj
    rw [position_update_add_zero] at hgj
    refine ⟨hgj, _, hgi, ?_⟩
    exact struct_sub_disp curA.position _ _ _ hdpos (le_of_lt hppos)
  · intro hid hdrag
    unfold settleStep
    rw [hB]
    dsimp only
    rw [if_pos ⟨hid, hdrag⟩]
  · intro stA hstA hid hdrag
    unfold settleRow
    rw [hstA]
    dsimp only
    rw [if_pos ⟨hid, hdrag⟩]

/-- Witness for the anchor-pair behavior: the anchor at the origin and a
contact 10px away; in the drag pass the anchor stays put and the contact
absorbs the full push, while the settle pass skips the anchor's row. -/
theorem anchor_pair_push_witness :
    (dragStep none 0 (userCenterNode ⟨0, 0⟩)
        ([userCenterNode ⟨0, 0⟩, mkNode "b" ⟨10, 0⟩], false) 1).1[0]? =
      some (userCenterNode ⟨0, 0⟩) ∧
    (∃ nodeB', (dragStep none 0 (userCenterNode ⟨0, 0⟩)
        ([userCenterNode ⟨0, 0⟩, mkNode "b" ⟨10, 0⟩], false) 1).1[1]? =
        some nodeB' ∧
      posDist (mkNode "b" ⟨10, 0⟩).position nodeB'.position =
        MIN_DISTANCE -
          nodeDist (userCenterNode ⟨0, 0⟩) (mkNode "b" ⟨10, 0⟩) +
          BOUNCE_FORCE) ∧
    settleRow 2 ([userCenterNode ⟨0, 0⟩, mkNode "b" ⟨10, 0⟩], false) 0 =
      ([userCenterNode ⟨0, 0⟩, mkNode "b" ⟨10, 0⟩], false) := by
  have h := anchor_pair_push none 2 0 1 (userCenterNode ⟨0, 0⟩)
    (mkNode "b" ⟨10, 0⟩) (userCenterNode ⟨0, 0⟩)
    ([userCenterNode ⟨0, 0⟩, mkNode "b" ⟨10, 0⟩], false)
    (by omega) rfl rfl hcol_uc_b10
  exact ⟨(h.1 (Or.inl rfl)).1, (h.1 (Or.inl rfl)).2,
    h.2.2.2 (userCenterNode ⟨0, 0⟩) rfl rfl (by simp [userCenterNode])⟩

/-- C3 counterexample: in the settle pass, a colliding pair made of the
self-anchor and a contact 10px away is left completely unchanged (the full
settle run returns the input), although the claim requires the contact to
receive the full positive `pushDistance`. -/
theorem settle_skips_anchor_pairs_cex :
    settleResolve [userCenterNode ⟨0, 0⟩, mkNode "b" ⟨10, 0⟩] =
      [userCenterNode ⟨0, 0⟩, mkNode "b" ⟨10, 0⟩] ∧
    nodeDist (userCenterNode ⟨0, 0⟩) (mkNode "b" ⟨10, 0⟩) < MIN_DISTANCE ∧
    nodeDist (userCenterNode ⟨0, 0⟩) (mkNode "b" ⟨10, 0⟩) > 0 := by
  have hrow0 : settleRow 2
      ([userCenterNode ⟨0, 0⟩, mkNode "b" ⟨10, 0⟩], false) 0 =
      ([userCenterNode ⟨0, 0⟩, mkNode "b" ⟨10, 0⟩], false) := by
    unfold settleRow
    dsimp only
    simp only [List.getElem?_cons_zero]
    rw [if_pos ⟨rfl, by simp [userCenterNode]⟩]
  have hrow1 : settleRow 2
      ([userCenterNode ⟨0, 0⟩, mkNode "b" ⟨10, 0⟩], false) 1 =
      ([userCenterNode ⟨0, 0⟩, mkNode "b" ⟨10, 0⟩], false) := by
    unfold settleRow
    dsimp only
    simp only [List.getElem?_cons_succ, List.getElem?_cons_zero]
    have hcondneg : ¬ ((mkNode "b" ⟨10, 0⟩).id = "user-center" ∧
        (mkNode "b" ⟨10, 0⟩).draggable ≠ some true) := by
      intro hcontra
      exact absurd hcontra.1 (by simp [mkNode])
    rw [if_neg hcondneg,
      show (2 : Nat) - (1 + 1) = 0 from rfl,
      show List.range' 2 0 = [] from rfl, List.foldl_nil]
  have hpass : settlePass [userCenterNode ⟨0, 0⟩, mkNode "b" ⟨10, 0⟩] =
      ([userCenterNode ⟨0, 0⟩, mkNode "b" ⟨10, 0⟩], false) := by
    unfold settlePass
    rw [show ([userCenterNode ⟨0, 0⟩, mkNode "b" ⟨10, 0⟩] :
        List RFNode).length = 2 from rfl,
      show List.range 2 = [0, 1] from rfl,
      List.foldl_cons, hrow0, List.foldl_cons, hrow1, List.foldl_nil]
  have hloop : settleLoop maxIterations
      [userCenterNode ⟨0, 0⟩, mkNode "b" ⟨10, 0⟩] =
      ([userCenterNode ⟨0, 0⟩, mkNode "b" ⟨10, 0⟩], true) := by
    rw [show maxIterations = 9 + 1 from rfl, settleLoop, hpass]
    simp
  refine ⟨?_, ?_, ?_⟩
  · unfold settleResolve
    rw [hloop]
  · exact hcol_uc_b10.1
  · rw [dist_uc_b10]
    norm_num

/-! ### Settle-pass pair corrections (for the split claims) -/

lemma lt_of_getElem?_some {α : Type _} {l : List α} {n : Nat} {a : α}
    (h : l[n]? = some a) : n < l.length := by
  by_contra hge
  push_neg at hge
  rw [List.getElem?_eq_none hge] at h
  exact Option.noConfusion h

lemma settle_disp_sub (p : Pos) (dx dy pd : ℝ)
    (hpos : 0 < Real.sqrt (dx * dx + dy * dy)) (hpd : 0 ≤ pd) :
    posDist p ⟨p.x - dx / Real.sqrt (dx * dx + dy * dy) * pd * 0.25,
               p.y - dy / Real.sqrt (dx * dx + dy * dy) * pd * 0.25⟩ =
      pd * 0.25 := by
  have h1 : dx / Real.sqrt (dx * dx + dy * dy) * pd * 0.25 =
      dx / Real.sqrt (dx * dx + dy * dy) * (pd * 0.25) := by ring
  have h2 : dy / Real.sqrt (dx * dx + dy * dy) * pd * 0.25 =
      dy / Real.sqrt (dx * dx + dy * dy) * (pd * 0.25) := by ring
  rw [h1, h2]
  exact struct_sub_disp p dx dy (pd * 0.25) hpos (mul_nonneg hpd (by norm_num))

lemma settle_disp_add (p : Pos) (dx dy pd : ℝ)
    (hpos : 0 < Real.sqrt (dx * dx + dy * dy)) (hpd : 0 ≤ pd) :
    posDist p ⟨p.x + dx / Real.sqrt (dx * dx + dy * dy) * pd * 0.25,
               p.y + dy / Real.sqrt (dx * dx + dy * dy) * pd * 0.25⟩ =
      pd * 0.25 := by
  have h1 : dx / Real.sqrt (dx * dx + dy * dy) * pd * 0.25 =
      dx / Real.sqrt (dx * dx + dy * dy) * (pd * 0.25) := by ring
  have h2 : dy / Real.sqrt (dx * dx + dy * dy) * pd * 0.25 =
      dy / Real.sqrt (dx * dx + dy * dy) * (pd * 0.25) := by ring
  rw [h1, h2]
  exact struct_add_disp p dx dy (pd * 0.25) hpos (mul_nonneg hpd (by norm_num))

lemma settlePush_pos {d : ℝ} (hd : d < MIN_DISTANCE) :
    0 < (MIN_DISTANCE - d) / 2 + BOUNCE_FORCE := by
  unfold BOUNCE_FORCE
  linarith

/-- Output of one corrected (non-skipped) pair in the settle pass: the `i`
entry is overwritten from the *stale* `nodeA` binding, the `j` entry from the
fresh `nodeB`, each moved by `pushDistance * 0.25` with the settle pass's
own `pushDistance = overlap / 2 + BOUNCE_FORCE`. -/
lemma settleStep_collision_gets (i j : Nat) (nodeA nodeB : RFNode)
    (st : List RFNode × Bool) (hij : i ≠ j) (hilt : i < st.1.length)
    (hB : st.1[j]? = some nodeB)
    (hBskip : ¬ (nodeB.id = "user-center" ∧ nodeB.draggable ≠ some true))
    (hcol : nodeDist nodeA nodeB < MIN_DISTANCE ∧ nodeDist nodeA nodeB > 0) :
    (settleStep i nodeA st j).1[i]? = some
      { nodeA with position :=
          ⟨nodeA.position.x - (nodeB.position.x - nodeA.position.x) /
              nodeDist nodeA nodeB *
              ((MIN_DISTANCE - nodeDist nodeA nodeB) / 2 + BOUNCE_FORCE) * 0.25,
           nodeA.position.y - (nodeB.position.y - nodeA.position.y) /
              nodeDist nodeA nodeB *
              ((MIN_DISTANCE - nodeDist nodeA nodeB) / 2 + BOUNCE_FORCE) * 0.25⟩ } ∧
    (settleStep i nodeA st j).1[j]? = some
      { nodeB with position :=
          ⟨nodeB.position.x + (nodeB.position.x - nodeA.position.x) /
              nodeDist nodeA nodeB *
              ((MIN_DISTANCE - nodeDist nodeA nodeB) / 2 + BOUNCE_FORCE) * 0.25,
           nodeB.position.y + (nodeB.position.y - nodeA.position.y) /
              nodeDist nodeA nodeB *
              ((MIN_DISTANCE - nodeDist nodeA nodeB) / 2 + BOUNCE_FORCE) * 0.25⟩ } := by
  have hjlt : j < st.1.length := lt_of_getElem?_some hB
  unfold settleStep
  rw [hB]
  dsimp only
  rw [if_neg hBskip]
  rw [if_pos hcol]
  dsimp only
  constructor
  · rw [List.getElem?_set, if_neg (Ne.symm hij), List.getElem?_set,
      if_pos rfl, if_pos hilt]
  · rw [List.getElem?_set, if_pos rfl, List.length_set, if_pos hjlt]

/-- C4 (amended): in the drag-time pass, each non-anchor node of a corrected
pair is displaced by a fixed fraction of
`pushDistance = (MIN_DISTANCE - distance) + BOUNCE_FORCE` — `0.15` if that
node is the active one, `0.25` otherwise — so the two displacement
magnitudes always sum to strictly less than `pushDistance`; when neither is
active the shares are equal (`0.25` each) and sum to `0.5 * pushDistance`.
In the settle pass the same pair (when not skipped as an anchor pair) splits
equally as well: each side moves by `0.25` of the settle pass's own
`pushDistance = (MIN_DISTANCE - distance) / 2 + BOUNCE_FORCE`, again summing
to strictly less than the claim's `pushDistance`. -/
theorem pair_push_split (c : Option String) (i j : Nat)
    (nodeA nodeB curA : RFNode) (st : List RFNode × Bool) (hij : i ≠ j)
    (hA : st.1[i]? = some curA) (hB : st.1[j]? = some nodeB)
    (hcol : nodeDist nodeA nodeB < MIN_DISTANCE ∧ nodeDist nodeA nodeB > 0.1)
    (hAn : ¬ isUserCenterId nodeA.id) (hBn : ¬ isUserCenterId nodeB.id) :
    (∃ nodeA' nodeB',
      (dragStep c i nodeA st j).1[i]? = some nodeA' ∧
      (dragStep c i nodeA st j).1[j]? = some nodeB' ∧
      posDist curA.position nodeA'.position =
        (if c = some nodeA.id
          then (MIN_DISTANCE - nodeDist nodeA nodeB + BOUNCE_FORCE) * 0.15
          else (MIN_DISTANCE - nodeDist nodeA nodeB + BOUNCE_FORCE) * 0.25) ∧
      posDist nodeB.position nodeB'.position =
        (if c = some nodeB.id
          then (MIN_DISTANCE - nodeDist nodeA nodeB + BOUNCE_FORCE) * 0.15
          else (MIN_DISTANCE - nodeDist nodeA nodeB + BOUNCE_FORCE) * 0.25) ∧
      posDist curA.position nodeA'.position +
          posDist nodeB.position nodeB'.position <
        MIN_DISTANCE - nodeDist nodeA nodeB + BOUNCE_FORCE ∧
      (c ≠ some nodeA.id → c ≠ some nodeB.id →
        posDist curA.position nodeA'.position =
          (MIN_DISTANCE - nodeDist nodeA nodeB + BOUNCE_FORCE) * 0.25 ∧
        posDist nodeB.position nodeB'.position =
          (MIN_DISTANCE - nodeDist nodeA nodeB + BOUNCE_FORCE) * 0.25 ∧
        posDist curA.position nodeA'.position +
            posDist nodeB.position nodeB'.position =
          (MIN_DISTANCE - nodeDist nodeA nodeB + BOUNCE_FORCE) * 0.5)) ∧
    (∃ sA' sB',
      (settleStep i nodeA st j).1[i]? = some sA' ∧
      (settleStep i nodeA st j).1[j]? = some sB' ∧
      posDist nodeA.position sA'.position =
        ((MIN_DISTANCE - nodeDist nodeA nodeB) / 2 + BOUNCE_FORCE) * 0.25 ∧
      posDist nodeB.position sB'.position =
        ((MIN_DISTANCE - nodeDist nodeA nodeB) / 2 + BOUNCE_FORCE) * 0.25 ∧
      posDist nodeA.position sA'.position +
          posDist nodeB.position sB'.position =
        ((MIN_DISTANCE - nodeDist nodeA nodeB) / 2 + BOUNCE_FORCE) * 0.5 ∧
      posDist nodeA.position sA'.position +
          posDist nodeB.position sB'.position <
        MIN_DISTANCE - nodeDist nodeA nodeB + BOUNCE_FORCE) := by
  have hdpos : 0 < nodeDist nodeA nodeB := nodeDist_pos_of_col hcol
  have hppos : 0 < MIN_DISTANCE - nodeDist nodeA nodeB + BOUNCE_FORCE :=
    pushDistance_pos hcol.1
  constructor
  · obtain ⟨hgi, hgj⟩ :=
      dragStep_collision_gets c i j nodeA nodeB curA st hij hA hB hcol
    rw [dragPushes_plain c nodeA nodeB _ hAn hBn] at hgi hgj
    dsimp only at hgi hgj
    have hdi : posDist curA.position
        ({ curA with position :=
          ⟨curA.position.x - (nodeB.position.x - nodeA.position.x) /
              nodeDist nodeA nodeB *
              (if c = some nodeA.id
                then (MIN_DISTANCE - nodeDist nodeA nodeB + BOUNCE_FORCE) * 0.15
                else (MIN_DISTANCE - nodeDist nodeA nodeB + BOUNCE_FORCE) * 0.25),
           curA.position.y - (nodeB.position.y - nodeA.position.y) /
              nodeDist nodeA nodeB *
              (if c = some nodeA.id
                then (MIN_DISTANCE - nodeDist nodeA nodeB + BOUNCE_FORCE) * 0.15
                else (MIN_DISTANCE - nodeDist nodeA nodeB + BOUNCE_FORCE) * 0.25)⟩ } :
          RFNode).position =
        (if c = some nodeA.id
          then (MIN_DISTANCE - nodeDist nodeA nodeB + BOUNCE_FORCE) * 0.15
          else (MIN_DISTANCE - nodeDist nodeA nodeB + BOUNCE_FORCE) * 0.25) :=
      struct_sub_disp curA.position _ _ _ hdpos
        (by split_ifs <;> linarith)
    have hdj : posDist nodeB.position
        ({ nodeB with position :=
          ⟨nodeB.position.x + (nodeB.position.x - nodeA.position.x) /
              nodeDist nodeA nodeB *
              (if c = some nodeB.id
                then (MIN_DISTANCE - nodeDist nodeA nodeB + BOUNCE_FORCE) * 0.15
                else (MIN_DISTANCE - nodeDist nodeA nodeB + BOUNCE_FORCE) * 0.25),
           nodeB.position.y + (nodeB.position.y - nodeA.position.y) /
              nodeDist nodeA nodeB *
              (if c = some nodeB.id
                then (MIN_DISTANCE - nodeDist nodeA nodeB + BOUNCE_FORCE) * 0.15
                else (MIN_DISTANCE - nodeDist nodeA nodeB + BOUNCE_FORCE) * 0.25)⟩ } :
          RFNode).position =
        (if c = some nodeB.id
          then (MIN_DISTANCE - nodeDist nodeA nodeB + BOUNCE_FORCE) * 0.15
          else (MIN_DISTANCE - nodeDist nodeA nodeB + BOUNCE_FORCE) * 0.25) :=
      struct_add_disp nodeB.position _ _ _ hdpos
        (by split_ifs <;> linarith)
    refine ⟨_, _, hgi, hgj, hdi, hdj, ?_, ?_⟩
    · rw [hdi, hdj]
      split_ifs <;> linarith
    · intro hAc hBc
      rw [hdi, hdj, if_neg hAc, if_neg hBc]
      exact ⟨rfl, rfl, by ring⟩
  · obtain ⟨hsi, hsj⟩ := settleStep_collision_gets i j nodeA nodeB st hij
      (lt_of_getElem?_some hA) hB (fun hc => hBn (Or.inl hc.1))
      ⟨hcol.1, nodeDist_pos_of_col hcol⟩
    have hspos : 0 < (MIN_DISTANCE - nodeDist nodeA nodeB) / 2 + BOUNCE_FORCE :=
      settlePush_pos hcol.1
    have hdi : posDist nodeA.position
        ({ nodeA with position :=
          ⟨nodeA.position.x - (nodeB.position.x - nodeA.position.x) /
              nodeDist nodeA nodeB *
              ((MIN_DISTANCE - nodeDist nodeA nodeB) / 2 + BOUNCE_FORCE) * 0.25,
           nodeA.position.y - (nodeB.position.y - nodeA.position.y) /
              nodeDist nodeA nodeB *
              ((MIN_DISTANCE - nodeDist nodeA nodeB) / 2 + BOUNCE_FORCE) * 0.25⟩ } :
          RFNode).position =
        ((MIN_DISTANCE - nodeDist nodeA nodeB) / 2 + BOUNCE_FORCE) * 0.25 :=
      settle_disp_sub nodeA.position _ _ _ hdpos (le_of_lt hspos)
    have hdj : posDist nodeB.position
        ({ nodeB with position :=
          ⟨nodeB.position.x + (nodeB.position.x - nodeA.position.x) /
              nodeDist nodeA nodeB *
              ((MIN_DISTANCE - nodeDist nodeA nodeB) / 2 + BOUNCE_FORCE) * 0.25,
           nodeB.position.y + (nodeB.position.y - nodeA.position.y) /
              nodeDist nodeA nodeB *
              ((MIN_DISTANCE - nodeDist nodeA nodeB) / 2 + BOUNCE_FORCE) * 0.25⟩ } :
          RFNode).position =
        ((MIN_DISTANCE - nodeDist nodeA nodeB) / 2 + BOUNCE_FORCE) * 0.25 :=
      settle_disp_add nodeB.position _ _ _ hdpos (le_of_lt hspos)
    refine ⟨_, _, hsi, hsj, hdi, hdj, by rw [hdi, hdj]; ring, ?_⟩
    rw [hdi, hdj]
    unfold BOUNCE_FORCE
    have hlt := hcol.1
    linarith

/-- Witness for the pair-split characterization at a concrete pair 10px
apart with no active node, in both the drag pass and the settle pass. -/
theorem pair_push_split_witness :
    (∃ nodeA' nodeB',
      (dragStep none 0 (mkNode "a" ⟨0, 0⟩)
          ([mkNode "a" ⟨0, 0⟩, mkNode "b" ⟨10, 0⟩], false) 1).1[0]? =
        some nodeA' ∧
      (dragStep none 0 (mkNode "a" ⟨0, 0⟩)
          ([mkNode "a" ⟨0, 0⟩, mkNode "b" ⟨10, 0⟩], false) 1).1[1]? =
        some nodeB' ∧
      posDist (mkNode "a" ⟨0, 0⟩).position nodeA'.position =
        (if (none : Option String) = some (mkNode "a" ⟨0, 0⟩).id
          then (MIN_DISTANCE -
            nodeDist (mkNode "a" ⟨0, 0⟩) (mkNode "b" ⟨10, 0⟩) +
            BOUNCE_FORCE) * 0.15
          else (MIN_DISTANCE -
            nodeDist (mkNode "a" ⟨0, 0⟩) (mkNode "b" ⟨10, 0⟩) +
            BOUNCE_FORCE) * 0.25) ∧
      posDist (mkNode "b" ⟨10, 0⟩).position nodeB'.position =
        (if (none : Option String) = some (mkNode "b" ⟨10, 0⟩).id
          then (MIN_DISTANCE -
            nodeDist (mkNode "a" ⟨0, 0⟩) (mkNode "b" ⟨10, 0⟩) +
            BOUNCE_FORCE) * 0.15
          else (MIN_DISTANCE -
            nodeDist (mkNode "a" ⟨0, 0⟩) (mkNode "b" ⟨10, 0⟩) +
            BOUNCE_FORCE) * 0.25) ∧
      posDist (mkNode "a" ⟨0, 0⟩).position nodeA'.position +
          posDist (mkNode "b" ⟨10, 0⟩).position nodeB'.position <
        MIN_DISTANCE - nodeDist (mkNode "a" ⟨0, 0⟩) (mkNode "b" ⟨10, 0⟩) +
          BOUNCE_FORCE ∧
      ((none : Option String) ≠ some (mkNode "a" ⟨0, 0⟩).id →
        (none : Option String) ≠ some (mkNode "b" ⟨10, 0⟩).id →
        posDist (mkNode "a" ⟨0, 0⟩).position nodeA'.position =
          (MIN_DISTANCE - nodeDist (mkNode "a" ⟨0, 0⟩) (mkNode "b" ⟨10, 0⟩) +
            BOUNCE_FORCE) * 0.25 ∧
        posDist (mkNode "b" ⟨10, 0⟩).position nodeB'.position =
          (MIN_DISTANCE - nodeDist (mkNode "a" ⟨0, 0⟩) (mkNode "b" ⟨10, 0⟩) +
            BOUNCE_FORCE) * 0.25 ∧
        posDist (mkNode "a" ⟨0, 0⟩).position nodeA'.position +
            posDist (mkNode "b" ⟨10, 0⟩).position nodeB'.position =
          (MIN_DISTANCE - nodeDist (mkNode "a" ⟨0, 0⟩) (mkNode "b" ⟨10, 0⟩) +
            BOUNCE_FORCE) * 0.5)) ∧
    (∃ sA' sB',
      (settleStep 0 (mkNode "a" ⟨0, 0⟩)
          ([mkNode "a" ⟨0, 0⟩, mkNode "b" ⟨10, 0⟩], false) 1).1[0]? =
        some sA' ∧
      (settleStep 0 (mkNode "a" ⟨0, 0⟩)
          ([mkNode "a" ⟨0, 0⟩, mkNode "b" ⟨10, 0⟩], false) 1).1[1]? =
        some sB' ∧
      posDist (mkNode "a" ⟨0, 0⟩).position sA'.position =
        ((MIN_DISTANCE - nodeDist (mkNode "a" ⟨0, 0⟩) (mkNode "b" ⟨10, 0⟩)) /
          2 + BOUNCE_FORCE) * 0.25 ∧
      posDist (mkNode "b" ⟨10, 0⟩).position sB'.position =
        ((MIN_DISTANCE - nodeDist (mkNode "a" ⟨0, 0⟩) (mkNode "b" ⟨10, 0⟩)) /
          2 + BOUNCE_FORCE) * 0.25 ∧
      posDist (mkNode "a" ⟨0, 0⟩).position sA'.position +
          posDist (mkNode "b" ⟨10, 0⟩).position sB'.position =
        ((MIN_DISTANCE - nodeDist (mkNode "a" ⟨0, 0⟩) (mkNode "b" ⟨10, 0⟩)) /
          2 + BOUNCE_FORCE) * 0.5 ∧
      posDist (mkNode "a" ⟨0, 0⟩).position sA'.position +
          posDist (mkNode "b" ⟨10, 0⟩).position sB'.position <
        MIN_DISTANCE - nodeDist (mkNode "a" ⟨0, 0⟩) (mkNode "b" ⟨10, 0⟩) +
          BOUNCE_FORCE) :=
  pair_push_split none 0 1 (mkNode "a" ⟨0, 0⟩) (mkNode "b" ⟨10, 0⟩)
    (mkNode "a" ⟨0, 0⟩) ([mkNode "a" ⟨0, 0⟩, mkNode "b" ⟨10, 0⟩], false)
    (by omega) rfl rfl hcol_a_b10
    (by simp [mkNode]) (by simp [mkNode])

/-- C4 counterexample: at a concrete symmetric pair 10px apart the two
displacement magnitudes sum to `13.125`, not the claimed
`pushDistance = 26.25`. -/
theorem push_sum_not_pushDistance_cex :
    ∃ nodeA' nodeB',
      (dragStep none 0 (mkNode "a" ⟨0, 0⟩)
          ([mkNode "a" ⟨0, 0⟩, mkNode "b" ⟨10, 0⟩], false) 1).1[0]? =
        some nodeA' ∧
      (dragStep none 0 (mkNode "a" ⟨0, 0⟩)
          ([mkNode "a" ⟨0, 0⟩, mkNode "b" ⟨10, 0⟩], false) 1).1[1]? =
        some nodeB' ∧
      posDist (mkNode "a" ⟨0, 0⟩).position nodeA'.position +
        posDist (mkNode "b" ⟨10, 0⟩).position nodeB'.position = 13.125 ∧
      MIN_DISTANCE - nodeDist (mkNode "a" ⟨0, 0⟩) (mkNode "b" ⟨10, 0⟩) +
        BOUNCE_FORCE = 26.25 ∧
      (13.125 : ℝ) ≠ 26.25 := by
  have hp : MIN_DISTANCE - nodeDist (mkNode "a" ⟨0, 0⟩) (mkNode "b" ⟨10, 0⟩) +
      BOUNCE_FORCE = 26.25 := by
    rw [dist_a_b10, MIN_DISTANCE_val]
    unfold BOUNCE_FORCE
    norm_num
  have hdpos : 0 < nodeDist (mkNode "a" ⟨0, 0⟩) (mkNode "b" ⟨10, 0⟩) :=
    nodeDist_pos_of_col hcol_a_b10
  obtain ⟨hgi, hgj⟩ := dragStep_collision_gets none 0 1
    (mkNode "a" ⟨0, 0⟩) (mkNode "b" ⟨10, 0⟩) (mkNode "a" ⟨0, 0⟩)
    ([mkNode "a" ⟨0, 0⟩, mkNode "b" ⟨10, 0⟩], false)
    (by omega) rfl rfl hcol_a_b10
  rw [dragPushes_plain none (mkNode "a" ⟨0, 0⟩) (mkNode "b" ⟨10, 0⟩) _
    (by simp [mkNode]) (by simp [mkNode])] at hgi hgj
  dsimp only at hgi hgj
  rw [if_neg (by simp : (none : Option String) ≠ some (mkNode "a" ⟨0, 0⟩).id)]
    at hgi
  rw [if_neg (by simp : (none : Option String) ≠ some (mkNode "b" ⟨10, 0⟩).id)]
    at hgj
  refine ⟨_, _, hgi, hgj, ?_, hp, by norm_num⟩
  have hdi := struct_sub_disp (mkNode "a" ⟨0, 0⟩).position
    ((mkNode "b" ⟨10, 0⟩).position.x - (mkNode "a" ⟨0, 0⟩).position.x)
    ((mkNode "b" ⟨10, 0⟩).position.y - (mkNode "a" ⟨0, 0⟩).position.y)
    ((MIN_DISTANCE - nodeDist (mkNode "a" ⟨0, 0⟩) (mkNode "b" ⟨10, 0⟩) +
      BOUNCE_FORCE) * 0.25) hdpos
    (by rw [hp]; norm_num)
  have hdj := struct_add_disp (mkNode "b" ⟨10, 0⟩).position
    ((mkNode "b" ⟨10, 0⟩).position.x - (mkNode "a" ⟨0, 0⟩).position.x)
    ((mkNode "b" ⟨10, 0⟩).position.y - (mkNode "a" ⟨0, 0⟩).position.y)
    ((MIN_DISTANCE - nodeDist (mkNode "a" ⟨0, 0⟩) (mkNode "b" ⟨10, 0⟩) +
      BOUNCE_FORCE) * 0.25) hdpos
    (by rw [hp]; norm_num)
  rw [hdi, hdj, hp]
  norm_num

/-- C5 (amended): for a corrected pair with exactly one active node and
neither node the anchor — whichever side of the pair is the active one —
the active node is displaced by `pushDistance * 0.15` and its partner by
`pushDistance * 0.25`: strictly less for the active node, as claimed, but
the partner's share is a fixed minority fraction, not the complementary
majority fraction, since the two shares sum to `0.4 * pushDistance`,
strictly less than `pushDistance`. -/
theorem active_minority_push (c : Option String) (i j : Nat)
    (nodeA nodeB curA : RFNode) (st : List RFNode × Bool) (hij : i ≠ j)
    (hA : st.1[i]? = some curA) (hB : st.1[j]? = some nodeB)
    (hcol : nodeDist nodeA nodeB < MIN_DISTANCE ∧ nodeDist nodeA nodeB > 0.1)
    (hAn : ¬ isUserCenterId nodeA.id) (hBn : ¬ isUserCenterId nodeB.id) :
    (c = some nodeA.id → c ≠ some nodeB.id →
      ∃ nodeA' nodeB',
        (dragStep c i nodeA st j).1[i]? = some nodeA' ∧
        (dragStep c i nodeA st j).1[j]? = some nodeB' ∧
        posDist curA.position nodeA'.position =
          (MIN_DISTANCE - nodeDist nodeA nodeB + BOUNCE_FORCE) * 0.15 ∧
        posDist nodeB.position nodeB'.position =
          (MIN_DISTANCE - nodeDist nodeA nodeB + BOUNCE_FORCE) * 0.25 ∧
        posDist curA.position nodeA'.position <
          posDist nodeB.position nodeB'.position ∧
        posDist curA.position nodeA'.position +
            posDist nodeB.position nodeB'.position <
          MIN_DISTANCE - nodeDist nodeA nodeB + BOUNCE_FORCE) ∧
    (c ≠ some nodeA.id → c = some nodeB.id →
      ∃ nodeA' nodeB',
        (dragStep c i nodeA st j).1[i]? = some nodeA' ∧
        (dragStep c i nodeA st j).1[j]? = some nodeB' ∧
        posDist curA.position nodeA'.position =
          (MIN_DISTANCE - nodeDist nodeA nodeB + BOUNCE_FORCE) * 0.25 ∧
        posDist nodeB.position nodeB'.position =
          (MIN_DISTANCE - nodeDist nodeA nodeB + BOUNCE_FORCE) * 0.15 ∧
        posDist nodeB.position nodeB'.position <
          posDist curA.position nodeA'.position ∧
        posDist curA.position nodeA'.position +
            posDist nodeB.position nodeB'.position <
          MIN_DISTANCE - nodeDist nodeA nodeB + BOUNCE_FORCE) := by
  have hdpos : 0 < nodeDist nodeA nodeB := nodeDist_pos_of_col hcol
  have hppos : 0 < MIN_DISTANCE - nodeDist nodeA nodeB + BOUNCE_FORCE :=
    pushDistance_pos hcol.1
  constructor
  · intro hAc hBc
    obtain ⟨hgi, hgj⟩ :=
      dragStep_collision_gets c i j nodeA nodeB curA st hij hA hB hcol
    rw [dragPushes_plain c nodeA nodeB _ hAn hBn] at hgi hgj
    dsimp only at hgi hgj
    rw [if_pos hAc] at hgi
    rw [if_neg hBc] at hgj
    have hdi : posDist curA.position
        ({ curA with position :=
          ⟨curA.position.x - (nodeB.position.x - nodeA.position.x) /
              nodeDist nodeA nodeB *
              ((MIN_DISTANCE - nodeDist nodeA nodeB + BOUNCE_FORCE) * 0.15),
           curA.position.y - (nodeB.position.y - nodeA.position.y) /
              nodeDist nodeA nodeB *
              ((MIN_DISTANCE - nodeDist nodeA nodeB + BOUNCE_FORCE) * 0.15)⟩ } :
          RFNode).position =
        (MIN_DISTANCE - nodeDist nodeA nodeB + BOUNCE_FORCE) * 0.15 :=
      struct_sub_disp curA.position _ _ _ hdpos (by positivity)
    have hdj : posDist nodeB.position
        ({ nodeB with position :=
          ⟨nodeB.position.x + (nodeB.position.x - nodeA.position.x) /
              nodeDist nodeA nodeB *
              ((MIN_DISTANCE - nodeDist nodeA nodeB + BOUNCE_FORCE) * 0.25),
           nodeB.position.y + (nodeB.position.y - nodeA.position.y) /
              nodeDist nodeA nodeB *
              ((MIN_DISTANCE - nodeDist nodeA nodeB + BOUNCE_FORCE) * 0.25)⟩ } :
          RFNode).position =
        (MIN_DISTANCE - nodeDist nodeA nodeB + BOUNCE_FORCE) * 0.25 :=
      struct_add_disp nodeB.position _ _ _ hdpos (by positivity)
    refine ⟨_, _, hgi, hgj, hdi, hdj, ?_, ?_⟩
    · rw [hdi, hdj]
      nlinarith
    · rw [hdi, hdj]
      nlinarith
  · intro hAc hBc
    obtain ⟨hgi, hgj⟩ :=
      dragStep_collision_gets c i j nodeA nodeB curA st hij hA hB hcol
    rw [dragPushes_plain c nodeA nodeB _ hAn hBn] at hgi hgj
    dsimp only at hgi hgj
    rw [if_neg hAc] at hgi
    rw [if_pos hBc] at hgj
    have hdi : posDist curA.position
        ({ curA with position :=
          ⟨curA.position.x - (nodeB.position.x - nodeA.position.x) /
              nodeDist nodeA nodeB *
              ((MIN_DISTANCE - nodeDist nodeA nodeB + BOUNCE_FORCE) * 0.25),
           curA.position.y - (nodeB.position.y - nodeA.position.y) /
              nodeDist nodeA nodeB *
              ((MIN_DISTANCE - nodeDist nodeA nodeB + BOUNCE_FORCE) * 0.25)⟩ } :
          RFNode).position =
        (MIN_DISTANCE - nodeDist nodeA nodeB + BOUNCE_FORCE) * 0.25 :=
      struct_sub_disp curA.position _ _ _ hdpos (by positivity)
    have hdj : posDist nodeB.position
        ({ nodeB with position :=
          ⟨nodeB.position.x + (nodeB.position.x - nodeA.position.x) /
              nodeDist nodeA nodeB *
              ((MIN_DISTANCE - nodeDist nodeA nodeB + BOUNCE_FORCE) * 0.15),
           nodeB.position.y + (nodeB.position.y - nodeA.position.y) /
              nodeDist nodeA nodeB *
              ((MIN_DISTANCE - nodeDist nodeA nodeB + BOUNCE_FORCE) * 0.15)⟩ } :
          RFNode).position =
        (MIN_DISTANCE - nodeDist nodeA nodeB + BOUNCE_FORCE) * 0.15 :=
      struct_add_disp nodeB.position _ _ _ hdpos (by positivity)
    refine ⟨_, _, hgi, hgj, hdi, hdj, ?_, ?_⟩
    · rw [hdi, hdj]
      nlinarith
    · rw [hdi, hdj]
      nlinarith

/-- Witness for the active-minority split at a concrete pair 10px apart,
exercising both orientations: the lower-index node dragged (active id
`"a"`), then the higher-index node dragged (active id `"b"`). -/
theorem active_minority_push_witness :
    (∃ nodeA' nodeB',
      (dragStep (some "a") 0 (mkNode "a" ⟨0, 0⟩)
          ([mkNode "a" ⟨0, 0⟩, mkNode "b" ⟨10, 0⟩], false) 1).1[0]? =
        some nodeA' ∧
      (dragStep (some "a") 0 (mkNode "a" ⟨0, 0⟩)
          ([mkNode "a" ⟨0, 0⟩, mkNode "b" ⟨10, 0⟩], false) 1).1[1]? =
        some nodeB' ∧
      posDist (mkNode "a" ⟨0, 0⟩).position nodeA'.position =
        (MIN_DISTANCE - nodeDist (mkNode "a" ⟨0, 0⟩) (mkNode "b" ⟨10, 0⟩) +
          BOUNCE_FORCE) * 0.15 ∧
      posDist (mkNode "b" ⟨10, 0⟩).position nodeB'.position =
        (MIN_DISTANCE - nodeDist (mkNode "a" ⟨0, 0⟩) (mkNode "b" ⟨10, 0⟩) +
          BOUNCE_FORCE) * 0.25 ∧
      posDist (mkNode "a" ⟨0, 0⟩).position nodeA'.position <
        posDist (mkNode "b" ⟨10, 0⟩).position nodeB'.position ∧
      posDist (mkNode "a" ⟨0, 0⟩).position nodeA'.position +
          posDist (mkNode "b" ⟨10, 0⟩).position nodeB'.position <
        MIN_DISTANCE - nodeDist (mkNode "a" ⟨0, 0⟩) (mkNode "b" ⟨10, 0⟩) +
          BOUNCE_FORCE) ∧
    (∃ nodeA' nodeB',
      (dragStep (some "b") 0 (mkNode "a" ⟨0, 0⟩)
          ([mkNode "a" ⟨0, 0⟩, mkNode "b" ⟨10, 0⟩], false) 1).1[0]? =
        some nodeA' ∧
      (dragStep (some "b") 0 (mkNode "a" ⟨0, 0⟩)
          ([mkNode "a" ⟨0, 0⟩, mkNode "b" ⟨10, 0⟩], false) 1).1[1]? =
        some nodeB' ∧
      posDist (mkNode "a" ⟨0, 0⟩).position nodeA'.position =
        (MIN_DISTANCE - nodeDist (mkNode "a" ⟨0, 0⟩) (mkNode "b" ⟨10, 0⟩) +
          BOUNCE_FORCE) * 0.25 ∧
      posDist (mkNode "b" ⟨10, 0⟩).position nodeB'.position =
        (MIN_DISTANCE - nodeDist (mkNode "a" ⟨0, 0⟩) (mkNode "b" ⟨10, 0⟩) +
          BOUNCE_FORCE) * 0.15 ∧
      posDist (mkNode "b" ⟨10, 0⟩).position nodeB'.position <
        posDist (mkNode "a" ⟨0, 0⟩).position nodeA'.position ∧
      posDist (mkNode "a" ⟨0, 0⟩).position nodeA'.position +
          posDist (mkNode "b" ⟨10, 0⟩).position nodeB'.position <
        MIN_DISTANCE - nodeDist (mkNode "a" ⟨0, 0⟩) (mkNode "b" ⟨10, 0⟩) +
          BOUNCE_FORCE) :=
  ⟨(active_minority_push (some "a") 0 1 (mkNode "a" ⟨0, 0⟩)
      (mkNode "b" ⟨10, 0⟩) (mkNode "a" ⟨0, 0⟩)
      ([mkNode "a" ⟨0, 0⟩, mkNode "b" ⟨10, 0⟩], false)
      (by omega) rfl rfl hcol_a_b10
      (by simp [mkNode]) (by simp [mkNode])).1 rfl (by simp [mkNode]),
   (active_minority_push (some "b") 0 1 (mkNode "a" ⟨0, 0⟩)
      (mkNode "b" ⟨10, 0⟩) (mkNode "a" ⟨0, 0⟩)
      ([mkNode "a" ⟨0, 0⟩, mkNode "b" ⟨10, 0⟩], false)
      (by omega) rfl rfl hcol_a_b10
      (by simp [mkNode]) (by simp [mkNode])).2 (by simp [mkNode]) rfl⟩

/-- C5 counterexample: at a concrete active pair 10px apart the partner is
displaced by `6.5625`, which is neither the complementary share
`pushDistance - 3.9375 = 22.3125` nor a majority of
`pushDistance = 26.25`. -/
theorem active_partner_share_cex :
    ∃ nodeA' nodeB',
      (dragStep (some "a") 0 (mkNode "a" ⟨0, 0⟩)
          ([mkNode "a" ⟨0, 0⟩, mkNode "b" ⟨10, 0⟩], false) 1).1[0]? =
        some nodeA' ∧
      (dragStep (some "a") 0 (mkNode "a" ⟨0, 0⟩)
          ([mkNode "a" ⟨0, 0⟩, mkNode "b" ⟨10, 0⟩], false) 1).1[1]? =
        some nodeB' ∧
      posDist (mkNode "a" ⟨0, 0⟩).position nodeA'.position = 3.9375 ∧
      posDist (mkNode "b" ⟨10, 0⟩).position nodeB'.position = 6.5625 ∧
      MIN_DISTANCE - nodeDist (mkNode "a" ⟨0, 0⟩) (mkNode "b" ⟨10, 0⟩) +
        BOUNCE_FORCE = 26.25 ∧
      (6.5625 : ℝ) ≠ 26.25 - 3.9375 ∧
      ¬ ((26.25 : ℝ) / 2 < 6.5625) := by
  have hp : MIN_DISTANCE - nodeDist (mkNode "a" ⟨0, 0⟩) (mkNode "b" ⟨10, 0⟩) +
      BOUNCE_FORCE = 26.25 := by
    rw [dist_a_b10, MIN_DISTANCE_val]
    unfold BOUNCE_FORCE
    norm_num
  have hdpos : 0 < nodeDist (mkNode "a" ⟨0, 0⟩) (mkNode "b" ⟨10, 0⟩) :=
    nodeDist_pos_of_col hcol_a_b10
  obtain ⟨hgi, hgj⟩ := dragStep_collision_gets (some "a") 0 1
    (mkNode "a" ⟨0, 0⟩) (mkNode "b" ⟨10, 0⟩) (mkNode "a" ⟨0, 0⟩)
    ([mkNode "a" ⟨0, 0⟩, mkNode "b" ⟨10, 0⟩], false)
    (by omega) rfl rfl hcol_a_b10
  rw [dragPushes_plain (some "a") (mkNode "a" ⟨0, 0⟩) (mkNode "b" ⟨10, 0⟩) _
    (by simp [mkNode]) (by simp [mkNode])] at hgi hgj
  dsimp only at hgi hgj
  rw [if_pos (show (some "a" : Option String) =
    some (mkNode "a" ⟨0, 0⟩).id from rfl)] at hgi
  rw [if_neg (by simp [mkNode] :
    (some "a" : Option String) ≠ some (mkNode "b" ⟨10, 0⟩).id)] at hgj
  have hdi := struct_sub_disp (mkNode "a" ⟨0, 0⟩).position
    ((mkNode "b" ⟨10, 0⟩).position.x - (mkNode "a" ⟨0, 0⟩).position.x)
    ((mkNode "b" ⟨10, 0⟩).position.y - (mkNode "a" ⟨0, 0⟩).position.y)
    ((MIN_DISTANCE - nodeDist (mkNode "a" ⟨0, 0⟩) (mkNode "b" ⟨10, 0⟩) +
      BOUNCE_FORCE) * 0.15) hdpos
    (by rw [hp]; norm_num)
  have hdj := struct_add_disp (mkNode "b" ⟨10, 0⟩).position
    ((mkNode "b" ⟨10, 0⟩).position.x - (mkNode "a" ⟨0, 0⟩).position.x)
    ((mkNode "b" ⟨10, 0⟩).position.y - (mkNode "a" ⟨0, 0⟩).position.y)
    ((MIN_DISTANCE - nodeDist (mkNode "a" ⟨0, 0⟩) (mkNode "b" ⟨10, 0⟩) +
      BOUNCE_FORCE) * 0.25) hdpos
    (by rw [hp]; norm_num)
  refine ⟨_, _, hgi, hgj, ?_, ?_, hp, by norm_num, by norm_num⟩
  · rw [hdi, hp]
    norm_num
  · rw [hdj, hp]
    norm_num

/-! ### Edge attachment: the quantized handle index is a nearest one -/

/-- C9: for a direction vector between two node positions, `getHandleIndex`
returns an integer in `[0, 64)` whose perimeter angle (`handleAngle`, the
layout angle of handle `index`) is a nearest quantized angle to the vector's
angle `atan2 dy dx`, up to full turns: it lies within half a quantization
step (`π/64`) and no other handle index, under any wrap, lies closer; and in
the edge recomputation the source handle uses the forward vector while the
target handle uses the reversed one. -/
theorem handle_index_nearest (dx dy : ℝ) (_hne : dx ≠ 0 ∨ dy ≠ 0) :
    (0 ≤ getHandleIndex dx dy ∧ getHandleIndex dx dy < 64) ∧
    (∃ k : ℤ,
      |atan2 dy dx - (handleAngle (getHandleIndex dx dy) + 2 * Real.pi * k)| ≤
        Real.pi / 64 ∧
      ∀ m k' : ℤ,
        |atan2 dy dx - (handleAngle (getHandleIndex dx dy) + 2 * Real.pi * k)| ≤
          |atan2 dy dx - (handleAngle m + 2 * Real.pi * k')|) ∧
    (∀ ps pt : Pos, edgeHandles ps pt =
      (getHandleIndex (pt.x - ps.x) (pt.y - ps.y),
       getHandleIndex (-(pt.x - ps.x)) (-(pt.y - ps.y)))) := by
  refine ⟨⟨Int.emod_nonneg _ (by norm_num), Int.emod_lt_of_pos _ (by norm_num)⟩,
    ?_, fun ps pt => rfl⟩
  have hidx : getHandleIndex dx dy =
      round ((atan2 dy dx + Real.pi / 2 -
        2 * Real.pi * ⌊(atan2 dy dx + Real.pi / 2) / (2 * Real.pi)⌋) /
        (2 * Real.pi) * 64) % 64 := rfl
  rw [hidx]
  generalize atan2 dy dx = A
  set F : ℤ := ⌊(A + Real.pi / 2) / (2 * Real.pi)⌋ with hF
  set X : ℝ := (A + Real.pi / 2 - 2 * Real.pi * F) / (2 * Real.pi) * 64 with hX
  set r : ℤ := round X with hr
  have hpi : (0 : ℝ) < 2 * Real.pi := by positivity
  have hmod : ((r % 64 : ℤ) : ℝ) = (r : ℝ) - 64 * ((r / 64 : ℤ) : ℝ) := by
    have h := Int.ediv_add_emod r 64
    have h2 : ((64 * (r / 64) + r % 64 : ℤ) : ℝ) = ((r : ℤ) : ℝ) := by
      exact_mod_cast congrArg (fun z : ℤ => (z : ℝ)) h
    push_cast at h2
    linarith
  have hX2 : 2 * Real.pi / 64 * X = A + Real.pi / 2 - 2 * Real.pi * F := by
    rw [hX]
    field_simp
    ring
  have heq : A - (handleAngle (r % 64) + 2 * Real.pi * ((F + r / 64 : ℤ) : ℝ)) =
      2 * Real.pi / 64 * (X - r) := by
    unfold handleAngle
    rw [hmod]
    push_cast
    linear_combination -hX2
  have habs : |X - (r : ℝ)| ≤ 1 / 2 := by
    have h := abs_sub_round X
    rw [← hr] at h
    exact h
  refine ⟨F + r / 64, ?_, ?_⟩
  · calc |A - (handleAngle (r % 64) + 2 * Real.pi * ((F + r / 64 : ℤ) : ℝ))|
        = |2 * Real.pi / 64 * (X - r)| := by rw [heq]
      _ = 2 * Real.pi / 64 * |X - (r : ℝ)| := by
          rw [abs_mul, abs_of_pos (show (0 : ℝ) < 2 * Real.pi / 64 by positivity)]
      _ ≤ 2 * Real.pi / 64 * (1 / 2) :=
          mul_le_mul_of_nonneg_left habs
            (le_of_lt (show (0 : ℝ) < 2 * Real.pi / 64 by positivity))
      _ = Real.pi / 64 := by ring
  · intro m k'
    have heq2 : A - (handleAngle m + 2 * Real.pi * (k' : ℝ)) =
        2 * Real.pi / 64 * (X - ((m + 64 * (k' - F) : ℤ) : ℝ)) := by
      unfold handleAngle
      push_cast
      linear_combination -hX2
    rw [heq, heq2, abs_mul, abs_mul,
      abs_of_pos (show (0 : ℝ) < 2 * Real.pi / 64 by positivity)]
    apply mul_le_mul_of_nonneg_left ?_
      (le_of_lt (show (0 : ℝ) < 2 * Real.pi / 64 by positivity))
    have h := round_le X (m + 64 * (k' - F))
    rw [← hr] at h
    exact h

/-- Witness: the nearest-handle property applied to the rightward unit
vector. -/
theorem handle_index_nearest_witness :
    (0 ≤ getHandleIndex 1 0 ∧ getHandleIndex 1 0 < 64) ∧
    (∃ k : ℤ,
      |atan2 0 1 - (handleAngle (getHandleIndex 1 0) + 2 * Real.pi * k)| ≤
        Real.pi / 64 ∧
      ∀ m k' : ℤ,
        |atan2 0 1 - (handleAngle (getHandleIndex 1 0) + 2 * Real.pi * k)| ≤
          |atan2 0 1 - (handleAngle m + 2 * Real.pi * k')|) ∧
    (∀ ps pt : Pos, edgeHandles ps pt =
      (getHandleIndex (pt.x - ps.x) (pt.y - ps.y),
       getHandleIndex (-(pt.x - ps.x)) (-(pt.y - ps.y)))) :=
  handle_index_nearest 1 0 (Or.inl one_ne_zero)

end Rolodex
